import Mathlib

/-!
# Verification of `slidepack_generator.py`

A shallow embedding of the slidepack generator: the placeholder classifier,
layout resolver, image-fit calculator and the `add_slide` content binder,
together with proofs of the specified properties.

The document model (python-pptx) is an external collaborator; its primitives
(shape lists, placeholder access by `idx`, text/picture assignment, shape
removal, slide-id allocation) are modelled explicitly below.  Python `dict`s
are modelled as insertion-ordered association lists with overwrite-in-place
semantics; Python exceptions (`KeyError`, `AssertionError`,
`ZeroDivisionError`) are modelled with an `Except` error type; the binary64
floating-point arithmetic of the fit calculator is modelled exactly by `fl`,
which rounds a rational to 53 significant bits (round-to-nearest, ties to
even), `int()` truncation of a nonnegative value being `Int.floor`.
-/

/-- Placeholder role tag (cf. `PP_PLACEHOLDER_TYPE`); `other` carries the
rendered `str(phf.type)` label. -/
inductive PHType where
  | title
  | body
  | picture
  | other (label : String)
deriving DecidableEq, Repr

/-- A shape on a slide: either a placeholder (with its `idx` key, role tag,
text, an optionally inserted picture, and geometry `left top width height`)
or a plain picture shape as added by `shapes.add_picture`. -/
inductive Shape where
  | placeholder (idx : Nat) (ty : PHType) (text : String) (pic : Option String)
      (left top width height : Nat)
  | picture (path : String) (left top width height : Nat)
deriving DecidableEq, Repr

/-- `shape.is_placeholder` -/
def Shape.isPlaceholder : Shape → Bool
  | .placeholder .. => true
  | .picture .. => false

/-- `shape.placeholder_format.idx`, when the shape is a placeholder. -/
def phIdx? : Shape → Option Nat
  | .placeholder idx _ _ _ _ _ _ _ => some idx
  | .picture .. => none

/-- The text held by a placeholder shape. -/
def shapeText : Shape → String
  | .placeholder _ _ t _ _ _ _ _ => t
  | .picture .. => ""

/-- The picture inserted into a placeholder shape, if any. -/
def shapePic : Shape → Option String
  | .placeholder _ _ _ p _ _ _ _ => p
  | .picture .. => none

/-- True for plain picture shapes (not placeholders). -/
def Shape.isPic : Shape → Bool
  | .picture .. => true
  | .placeholder .. => false

structure Slide where
  shapes : List Shape
  slide_id : Nat
deriving DecidableEq, Repr

structure Layout where
  name : String
  shapes : List Shape
deriving DecidableEq, Repr

structure Prs where
  slide_layouts : List Layout
  slides : List Slide
deriving DecidableEq, Repr

/-- Python errors surfaced by the module: `KeyError` (the spec's
`UnknownLayoutError`), `AssertionError` (the spec's `InvalidInputError`) and
`ZeroDivisionError`. -/
inductive PErr where
  | keyError
  | assertionError (msg : String)
  | zeroDivisionError
deriving DecidableEq, Repr

instance exceptDecEq {ε α : Type} [DecidableEq ε] [DecidableEq α] :
    DecidableEq (Except ε α)
  | .ok x, .ok y =>
    if h : x = y then .isTrue (by rw [h])
    else .isFalse (by intro hc; cases hc; exact h rfl)
  | .ok _, .error _ => .isFalse (by intro hc; cases hc)
  | .error _, .ok _ => .isFalse (by intro hc; cases hc)
  | .error e, .error f =>
    if h : e = f then .isTrue (by rw [h])
    else .isFalse (by intro hc; cases hc; exact h rfl)

/-- A Python `dict` as an insertion-ordered association list: assigning to an
existing key overwrites its value in place, a new key is appended. -/
def dictInsert {α β : Type} [DecidableEq α] (d : List (α × β)) (k : α) (v : β) :
    List (α × β) :=
  if d.any (fun p => decide (p.1 = k)) then
    d.map (fun p => if p.1 = k then (k, v) else p)
  else d ++ [(k, v)]

/-- Python `dict` lookup, `none` meaning `KeyError`. -/
def dictLookup {α β : Type} [DecidableEq α] (d : List (α × β)) (k : α) : Option β :=
  (d.find? (fun p => decide (p.1 = k))).map (fun p => p.2)

/-- `get_all_slide_layouts`: `{l.name: i for i, l in enumerate(prs.slide_layouts)}`. -/
def get_all_slide_layouts (prs : Prs) : List (String × Nat) :=
  prs.slide_layouts.enum.foldl (fun d p => dictInsert d p.2.name p.1) []

/-- The classifier's result record (`{"title": "", "body": [], "picture": [],
"other": {}}`); the Python sentinel `""` for a missing title is `none`. -/
structure SlidePlaceholders where
  title : Option Nat
  body : List Nat
  picture : List Nat
  other : List (Nat × String)
deriving DecidableEq, Repr

/-- One iteration of the classifier loop in `get_slide_placeholders`. -/
def classifyStep (acc : SlidePlaceholders) (sh : Shape) : SlidePlaceholders :=
  match sh with
  | .placeholder idx ty _ _ _ _ _ _ =>
    match ty with
    | .title => { acc with title := some idx }
    | .body => { acc with body := acc.body ++ [idx] }
    | .picture => { acc with picture := acc.picture ++ [idx] }
    | .other lbl => { acc with other := dictInsert acc.other idx lbl }
  | .picture .. => acc

/-- `get_slide_placeholders`: bucket the placeholders by role, then reverse
the `body` and `picture` buckets (shapes are stored in reverse of the UI
order). -/
def get_slide_placeholders (slide : Slide) : SlidePlaceholders :=
  let sp := slide.shapes.foldl classifyStep ⟨none, [], [], []⟩
  { sp with body := sp.body.reverse, picture := sp.picture.reverse }

/-- `_get_slide_layout_idx`: `get_all_slide_layouts(prs)[layout_name]`;
a missing key raises `KeyError`. -/
def _get_slide_layout_idx (prs : Prs) (layout_name : String) : Except PErr Nat :=
  match dictLookup (get_all_slide_layouts prs) layout_name with
  | some i => .ok i
  | none => .error .keyError

/-- Round-to-nearest, ties-to-even, of a rational to an integer: the
rounding applied to the 53-bit significand of an IEEE-754 double. -/
def rnd53 (m : ℚ) : ℤ :=
  if m - (⌊m⌋ : ℚ) < 1/2 then ⌊m⌋
  else if 1/2 < m - (⌊m⌋ : ℚ) then ⌊m⌋ + 1
  else if ⌊m⌋ % 2 = 0 then ⌊m⌋ else ⌊m⌋ + 1

/-- Binary64 rounding of a positive rational: scale into `[2^52, 2^53)`,
round the significand to the nearest integer (ties to even), scale back. -/
def flPos (q : ℚ) : ℚ :=
  (rnd53 (q * 2 ^ ((52 : ℤ) - Int.log 2 q)) : ℚ) * 2 ^ (Int.log 2 q - 52)

/-- The IEEE-754 binary64 value of a rational: round-to-nearest-even to 53
significant bits.  The exponent is unbounded, so this agrees with Python
floats at every value whose magnitude stays inside the normal finite double
range (no overflow or subnormals; pixel dimensions are far inside it). -/
def fl (q : ℚ) : ℚ :=
  if q = 0 then 0
  else if 0 < q then flPos q
  else -flPos (-q)

/-- The unit relative rounding error of binary64, `2 ^ (-53)`. -/
def eps53 : ℚ := 2 ^ ((-53 : ℤ))

/-- `_calc_max_image_height_within_placeholder`, over binary64 floats
modelled exactly: `int / int` true division yields the correctly rounded
double `fl (a / b)` and raises `ZeroDivisionError` on a zero divisor;
`int * float` promotes the int to a double (`fl`) and multiplies with one
more rounding; `min` compares the two doubles exactly; `int()` truncation
of the nonnegative result is `Int.floor`. -/
def _calc_max_image_height_within_placeholder
    (img_size placeholder_size : Nat × Nat) : Except PErr (Nat × Nat) :=
  if img_size.1 = 0 ∨ img_size.2 = 0 then .error .zeroDivisionError
  else
    let width_scale_factor : ℚ :=
      fl ((placeholder_size.1 : ℚ) / (img_size.1 : ℚ))
    let height_scale_factor : ℚ :=
      fl ((placeholder_size.2 : ℚ) / (img_size.2 : ℚ))
    let scale_factor := min width_scale_factor height_scale_factor
    .ok (⌊fl (fl (img_size.1 : ℚ) * scale_factor)⌋.toNat,
         ⌊fl (fl (img_size.2 : ℚ) * scale_factor)⌋.toNat)

/-- Set the fields of a placeholder shape's text (`shape.text = txt`). -/
def setTextSh (txt : String) : Shape → Shape
  | .placeholder idx ty _ pic l t w h => .placeholder idx ty txt pic l t w h
  | sh => sh

/-- Record a picture inserted into a placeholder (`ph.insert_picture(path)`:
the placeholder keeps its identity and now carries the image, cropped to
fill). -/
def setPicSh (path : String) : Shape → Shape
  | .placeholder idx ty txt _ l t w h => .placeholder idx ty txt (some path) l t w h
  | sh => sh

/-- `slide.placeholders[q]`: the placeholder shape with idx key `q`. -/
def findPH (s : Slide) (q : Nat) : Option Shape :=
  s.shapes.find? (fun sh => decide (phIdx? sh = some q))

/-- `slide.placeholders[q].text = txt` (the index always exists at the call
sites inside `add_slide`, whose indices come from classifying this slide). -/
def setPlaceholderText (s : Slide) (q : Nat) (txt : String) : Slide :=
  { s with shapes :=
      s.shapes.map (fun sh => if phIdx? sh = some q then setTextSh txt sh else sh) }

/-- `slide.placeholders[q].insert_picture(path)`. -/
def setPlaceholderPic (s : Slide) (q : Nat) (path : String) : Slide :=
  { s with shapes :=
      s.shapes.map (fun sh => if phIdx? sh = some q then setPicSh path sh else sh) }

/-- `_remove_placeholder_from_slide`: drop the placeholder with idx key `q`
from the slide's shape tree. -/
def _remove_placeholder_from_slide (s : Slide) (q : Nat) : Slide :=
  { s with shapes := s.shapes.filter (fun sh => decide (¬ phIdx? sh = some q)) }

/-- True for title-typed placeholder shapes. -/
def isTitlePH : Shape → Bool
  | .placeholder _ .title _ _ _ _ _ _ => true
  | _ => false

/-- Modelled from the spec: the document model exposes the slide's title
placeholder as `slide.shapes.title`. -/
def shapesTitleIdx (s : Slide) : Option Nat :=
  (s.shapes.find? isTitlePH).bind phIdx?

/-- `slide.shapes.title.text = txt`. -/
def setTitleText (s : Slide) (txt : String) : Slide :=
  match shapesTitleIdx s with
  | some t => setPlaceholderText s t txt
  | none => s

/-- `_add_picture_within_placeholder`; `imgSize` stands for
`Image.open(picture).size`.  The image is added at the placeholder's
position with the computed fit size, then the placeholder is removed. -/
def _add_picture_within_placeholder (imgSize : String → Nat × Nat)
    (s : Slide) (q : Nat) (picture : String) : Except PErr Slide :=
  match findPH s q with
  | some (.placeholder _ _ _ _ l t w h) =>
    match _calc_max_image_height_within_placeholder (imgSize picture) (w, h) with
    | .error e => .error e
    | .ok osize =>
      .ok (_remove_placeholder_from_slide
            { s with shapes := s.shapes ++ [.picture picture l t osize.1 osize.2] } q)
  | _ => .ok s

/-- A Python argument that is either a bare `str` or a list of `str`:
`len` and indexing follow Python (indexing a `str` yields a one-character
string). -/
inductive PyStrList where
  | str (s : String)
  | list (xs : List String)
deriving DecidableEq, Repr

def PyStrList.len : PyStrList → Nat
  | .str s => s.length
  | .list xs => xs.length

def PyStrList.get : PyStrList → Nat → String
  | .str s, i => String.mk [s.toList.getD i ' ']
  | .list xs, i => xs.getD i ""

/-- The `Update Body` loop of `add_slide`: `for i, placeholder_idx in
enumerate(placeholders["body"])`, set text if `i < num_bodies`, else remove
the placeholder. -/
def bodyLoop (bodies : PyStrList) (num_bodies : Nat) :
    Nat → List Nat → Slide → Slide
  | _, [], s => s
  | i, idx :: rest, s =>
    bodyLoop bodies num_bodies (i + 1) rest
      (if i < num_bodies then setPlaceholderText s idx (bodies.get i)
       else _remove_placeholder_from_slide s idx)

/-- The `Update Picture` loop of `add_slide`; a `ZeroDivisionError` from the
fit calculation propagates, leaving the slide as it was at that point. -/
def picLoop (imgSize : String → Nat × Nat) (pictures : PyStrList)
    (num_pictures : Nat) (method : String) :
    Nat → List Nat → Slide → Slide × Option PErr
  | _, [], s => (s, none)
  | i, idx :: rest, s =>
    if i < num_pictures then
      if method = "fill_placeholder" then
        picLoop imgSize pictures num_pictures method (i + 1) rest
          (setPlaceholderPic s idx (pictures.get i))
      else if method = "within_placeholder" then
        match _add_picture_within_placeholder imgSize s idx (pictures.get i) with
        | .ok s' => picLoop imgSize pictures num_pictures method (i + 1) rest s'
        | .error e => (s, some e)
      else
        picLoop imgSize pictures num_pictures method (i + 1) rest s
    else
      picLoop imgSize pictures num_pictures method (i + 1) rest
        (_remove_placeholder_from_slide s idx)

/-- Modelled from the spec: the external document model assigns each new
slide a stable numeric id, `slide.slide_id`; python-pptx allocates
`max(existing ids, 255) + 1`. -/
def nextSlideId (prs : Prs) : Nat :=
  (prs.slides.foldl (fun m s => max m s.slide_id) 255) + 1

/-- `prs.slides.add_slide(prs.slide_layouts[idx])`: a fresh slide carrying
clones of the layout's placeholder shapes. -/
def theNewSlide (prs : Prs) (layout_idx : Nat) : Slide :=
  ⟨(prs.slide_layouts.getD layout_idx ⟨"", []⟩).shapes.filter Shape.isPlaceholder,
   nextSlideId prs⟩

/-- `add_slide`, returning the final document state together with the
outcome (the new slide's `slide_id`, or the Python exception raised).  The
new slide is appended before the input checks run, so a failed assertion
leaves it on the deck, exactly as in the source. -/
def add_slide (prs : Prs) (layout_name : String) (title : String)
    (bodies pictures : PyStrList) (picture_scale_method : String)
    (imgSize : String → Nat × Nat) : Prs × Except PErr Nat :=
  match _get_slide_layout_idx prs layout_name with
  | .error e => (prs, .error e)
  | .ok layout_idx =>
    let slide := theNewSlide prs layout_idx
    let withSlide : Prs := { prs with slides := prs.slides ++ [slide] }
    let placeholders := get_slide_placeholders slide
    if placeholders.title = none ∧ title ≠ "" then
      (withSlide, .error (.assertionError "Title provided but no title placeholder exists"))
    else if ¬ bodies.len ≤ placeholders.body.length then
      (withSlide, .error (.assertionError "Body: more strings provided than placeholders exist"))
    else if ¬ pictures.len ≤ placeholders.picture.length then
      (withSlide, .error (.assertionError "Pictures: more provided than placeholders exist"))
    else
      let s1 :=
        match placeholders.title with
        | some t =>
          if title ≠ "" then setTitleText slide title
          else _remove_placeholder_from_slide slide t
        | none => slide
      let s2 := bodyLoop bodies bodies.len 0 placeholders.body s1
      match picLoop imgSize pictures pictures.len picture_scale_method 0
          placeholders.picture s2 with
      | (s3, some e) => ({ prs with slides := prs.slides ++ [s3] }, .error e)
      | (s3, none) => ({ prs with slides := prs.slides ++ [s3] }, .ok slide.slide_id)

/-! ## Characterizing the classifier

Selector functions picking a shape's contribution to each bucket of
`get_slide_placeholders`; the classifier is proven equal to filtering the
shape list through them. -/

def titleSel : Shape → Option Nat
  | .placeholder idx .title _ _ _ _ _ _ => some idx
  | _ => none

def bodySel : Shape → Option Nat
  | .placeholder idx .body _ _ _ _ _ _ => some idx
  | _ => none

def picSel : Shape → Option Nat
  | .placeholder idx .picture _ _ _ _ _ _ => some idx
  | _ => none

def otherSel : Shape → Option (Nat × String)
  | .placeholder idx (.other lbl) _ _ _ _ _ _ => some (idx, lbl)
  | _ => none

/-- The last element of `l`, else the earlier candidate `o` (the classifier's
`title` field is overwritten by each title placeholder met). -/
def olast {α : Type} (o : Option α) (l : List α) : Option α :=
  match l.getLast? with
  | some x => some x
  | none => o

theorem olast_cons {α : Type} (o : Option α) (x : α) (xs : List α) :
    olast o (x :: xs) = olast (some x) xs := by
  cases h : xs.getLast? with
  | some y =>
    have hc : (x :: xs).getLast? = some y := by
      cases xs with
      | nil => simp at h
      | cons z zs => rw [List.getLast?_cons_cons]; exact h
    simp [olast, hc, h]
  | none =>
    have hx : xs = [] := List.getLast?_eq_none_iff.mp h
    subst hx
    simp [olast]

theorem olast_none {α : Type} (l : List α) : olast none l = l.getLast? := by
  cases h : l.getLast? <;> simp [olast, h]

theorem classifyFold_spec (l : List Shape) : ∀ acc : SlidePlaceholders,
    l.foldl classifyStep acc =
      ⟨olast acc.title (l.filterMap titleSel),
       acc.body ++ l.filterMap bodySel,
       acc.picture ++ l.filterMap picSel,
       (l.filterMap otherSel).foldl (fun d p => dictInsert d p.1 p.2) acc.other⟩ := by
  induction l with
  | nil => intro acc; simp [olast]
  | cons sh rest ih =>
    intro acc
    cases sh with
    | picture path l t w h =>
      simp [classifyStep, titleSel, bodySel, picSel, otherSel, ih]
    | placeholder idx ty txt pic l t w h =>
      cases ty with
      | title =>
        simp [classifyStep, titleSel, bodySel, picSel, otherSel, ih, olast_cons]
      | body =>
        simp [classifyStep, titleSel, bodySel, picSel, otherSel, ih]
      | picture =>
        simp [classifyStep, titleSel, bodySel, picSel, otherSel, ih]
      | other lbl =>
        simp [classifyStep, titleSel, bodySel, picSel, otherSel, ih]

/-- The classifier, in closed form. -/
theorem get_slide_placeholders_eq (s : Slide) :
    get_slide_placeholders s =
      ⟨(s.shapes.filterMap titleSel).getLast?,
       (s.shapes.filterMap bodySel).reverse,
       (s.shapes.filterMap picSel).reverse,
       (s.shapes.filterMap otherSel).foldl (fun d p => dictInsert d p.1 p.2) []⟩ := by
  simp [get_slide_placeholders, classifyFold_spec, olast_none]

theorem dictInsert_keys_mem {α β : Type} [DecidableEq α]
    (d : List (α × β)) (k q : α) (v : β) :
    q ∈ (dictInsert d k v).map Prod.fst ↔ (q ∈ d.map Prod.fst ∨ q = k) := by
  unfold dictInsert
  split
  · rename_i h
    have hk : k ∈ d.map Prod.fst := by
      rcases List.any_eq_true.mp h with ⟨p, hp, hpk⟩
      exact List.mem_map.mpr ⟨p, hp, of_decide_eq_true hpk⟩
    have hkeys : (d.map (fun p => if p.1 = k then (k, v) else p)).map Prod.fst =
        d.map Prod.fst := by
      rw [List.map_map]
      apply List.map_congr_left
      intro p _
      by_cases hpk : p.1 = k <;> simp [hpk]
    rw [hkeys]
    constructor
    · exact Or.inl
    · rintro (hq | rfl)
      · exact hq
      · exact hk
  · simp [or_comm]

theorem dictFold_keys_mem {α β : Type} [DecidableEq α] (entries : List (α × β)) :
    ∀ (d : List (α × β)) (q : α),
      q ∈ ((entries.foldl (fun d p => dictInsert d p.1 p.2) d).map Prod.fst) ↔
        (q ∈ d.map Prod.fst ∨ q ∈ entries.map Prod.fst) := by
  induction entries with
  | nil => simp
  | cons e rest ih =>
    intro d q
    simp only [List.foldl_cons, ih, dictInsert_keys_mem, List.map_cons, List.mem_cons]
    tauto

/-! ## Frame lemmas: how each mutation primitive moves `findPH` -/

theorem phIdx_setTextSh (txt : String) (sh : Shape) :
    phIdx? (setTextSh txt sh) = phIdx? sh := by
  cases sh <;> rfl

theorem phIdx_setPicSh (path : String) (sh : Shape) :
    phIdx? (setPicSh path sh) = phIdx? sh := by
  cases sh <;> rfl

theorem find_cond_map (q q' : Nat) (f : Shape → Shape)
    (hf : ∀ sh, phIdx? (f sh) = phIdx? sh) (l : List Shape) :
    (l.map (fun sh => if phIdx? sh = some q then f sh else sh)).find?
        (fun sh => decide (phIdx? sh = some q')) =
      if q' = q then (l.find? (fun sh => decide (phIdx? sh = some q))).map f
      else l.find? (fun sh => decide (phIdx? sh = some q')) := by
  induction l with
  | nil => by_cases h : q' = q <;> simp [h]
  | cons sh rest ih =>
    simp only [List.map_cons]
    by_cases hq : phIdx? sh = some q
    · rw [if_pos hq]
      by_cases hqq : q' = q
      · subst hqq
        rw [if_pos rfl] at ih ⊢
        rw [List.find?_cons_of_pos _ (by simp [hf, hq]),
          List.find?_cons_of_pos _ (by simp [hq])]
        simp
      · rw [if_neg hqq] at ih ⊢
        rw [List.find?_cons_of_neg _ (by simp [hf, hq]; exact fun hc => hqq hc.symm),
          List.find?_cons_of_neg _ (by simp [hq]; exact fun hc => hqq hc.symm)]
        exact ih
    · rw [if_neg hq]
      by_cases hqq : q' = q
      · subst hqq
        rw [if_pos rfl] at ih ⊢
        rw [List.find?_cons_of_neg _ (by simp [hq]),
          List.find?_cons_of_neg _ (by simp [hq])]
        exact ih
      · rw [if_neg hqq] at ih ⊢
        by_cases hq' : phIdx? sh = some q'
        · rw [List.find?_cons_of_pos _ (by simp [hq']),
            List.find?_cons_of_pos _ (by simp [hq'])]
        · rw [List.find?_cons_of_neg _ (by simp [hq']),
            List.find?_cons_of_neg _ (by simp [hq'])]
          exact ih

theorem find_filter_remove (q q' : Nat) (l : List Shape) :
    (l.filter (fun sh => decide (¬ phIdx? sh = some q))).find?
        (fun sh => decide (phIdx? sh = some q')) =
      if q' = q then none else l.find? (fun sh => decide (phIdx? sh = some q')) := by
  induction l with
  | nil => by_cases h : q' = q <;> simp [h]
  | cons sh rest ih =>
    by_cases hq : phIdx? sh = some q
    · rw [List.filter_cons_of_neg (by simp [hq])]
      rw [ih]
      by_cases hqq : q' = q
      · rw [if_pos hqq, if_pos hqq]
      · rw [if_neg hqq, if_neg hqq,
          List.find?_cons_of_neg _ (by simp [hq]; exact fun hc => hqq hc.symm)]
    · rw [List.filter_cons_of_pos (by simp [hq])]
      by_cases hq' : phIdx? sh = some q'
      · have hqq : ¬ q' = q := by
          intro hc; subst hc; exact hq hq'
        rw [if_neg hqq, List.find?_cons_of_pos _ (by simp [hq']),
          List.find?_cons_of_pos _ (by simp [hq'])]
      · rw [List.find?_cons_of_neg _ (by simp [hq']), ih]
        by_cases hqq : q' = q
        · rw [if_pos hqq, if_pos hqq]
        · rw [if_neg hqq, if_neg hqq, List.find?_cons_of_neg _ (by simp [hq'])]

theorem find_append_nonph (q : Nat) (sh : Shape) (hsh : phIdx? sh = none)
    (l : List Shape) :
    (l ++ [sh]).find? (fun s => decide (phIdx? s = some q)) =
      l.find? (fun s => decide (phIdx? s = some q)) := by
  induction l with
  | nil => simp [hsh]
  | cons a rest ih =>
    by_cases ha : phIdx? a = some q
    · rw [List.cons_append, List.find?_cons_of_pos _ (by simp [ha]),
        List.find?_cons_of_pos _ (by simp [ha])]
    · rw [List.cons_append, List.find?_cons_of_neg _ (by simp [ha]),
        List.find?_cons_of_neg _ (by simp [ha])]
      exact ih

theorem findPH_setText (s : Slide) (q q' : Nat) (txt : String) :
    findPH (setPlaceholderText s q txt) q' =
      if q' = q then (findPH s q).map (setTextSh txt) else findPH s q' :=
  find_cond_map q q' _ (phIdx_setTextSh txt) s.shapes

theorem findPH_setPic (s : Slide) (q q' : Nat) (path : String) :
    findPH (setPlaceholderPic s q path) q' =
      if q' = q then (findPH s q).map (setPicSh path) else findPH s q' :=
  find_cond_map q q' _ (phIdx_setPicSh path) s.shapes

theorem findPH_remove (s : Slide) (q q' : Nat) :
    findPH (_remove_placeholder_from_slide s q) q' =
      if q' = q then none else findPH s q' :=
  find_filter_remove q q' s.shapes

/-! ## Uniqueness of placeholder idx keys

python-pptx keys `slide.placeholders` by `idx`: on a well-formed slide the
idx values of the placeholder shapes are pairwise distinct.  Theorems take
this as the hypothesis `(shapes.filterMap phIdx?).Nodup`. -/

theorem titleSel_phIdx (sh : Shape) (q : Nat) (h : titleSel sh = some q) :
    phIdx? sh = some q := by
  cases sh with
  | placeholder idx ty txt pic l t w hh => cases ty <;> simp_all [titleSel, phIdx?]
  | picture => simp [titleSel] at h

theorem bodySel_phIdx (sh : Shape) (q : Nat) (h : bodySel sh = some q) :
    phIdx? sh = some q := by
  cases sh with
  | placeholder idx ty txt pic l t w hh => cases ty <;> simp_all [bodySel, phIdx?]
  | picture => simp [bodySel] at h

theorem picSel_phIdx (sh : Shape) (q : Nat) (h : picSel sh = some q) :
    phIdx? sh = some q := by
  cases sh with
  | placeholder idx ty txt pic l t w hh => cases ty <;> simp_all [picSel, phIdx?]
  | picture => simp [picSel] at h

theorem isTitlePH_titleSel (sh : Shape) (q : Nat)
    (ht : isTitlePH sh = true) (hq : phIdx? sh = some q) : titleSel sh = some q := by
  cases sh with
  | placeholder idx ty txt pic l t w hh =>
    cases ty <;> simp_all [isTitlePH, titleSel, phIdx?]
  | picture => simp [isTitlePH] at ht

theorem find_eq_of_nodup : ∀ l : List Shape, (l.filterMap phIdx?).Nodup →
    ∀ (sh : Shape) (q : Nat), sh ∈ l → phIdx? sh = some q →
      l.find? (fun s => decide (phIdx? s = some q)) = some sh := by
  intro l
  induction l with
  | nil => intro _ sh q hmem; cases hmem
  | cons a rest ih =>
    intro hN sh q hmem hq
    by_cases ha : phIdx? a = some q
    · rw [List.find?_cons_of_pos _ (by simp [ha])]
      rcases List.mem_cons.mp hmem with rfl | hmem'
      · rfl
      · exfalso
        have hqrest : q ∈ rest.filterMap phIdx? :=
          List.mem_filterMap.mpr ⟨sh, hmem', hq⟩
        rw [List.filterMap_cons_some ha] at hN
        exact (List.nodup_cons.mp hN).1 hqrest
    · rw [List.find?_cons_of_neg _ (by simp [ha])]
      have hsh : sh ∈ rest := by
        rcases List.mem_cons.mp hmem with rfl | h
        · exact absurd hq ha
        · exact h
      have hNr : (rest.filterMap phIdx?).Nodup := by
        cases hfa : phIdx? a with
        | some p => rw [List.filterMap_cons_some hfa] at hN; exact hN.of_cons
        | none => rw [List.filterMap_cons_none hfa] at hN; exact hN
      exact ih hNr sh q hsh hq

theorem filterMap_sublist_mono {α β : Type} (f g : α → Option β)
    (h : ∀ x y, f x = some y → g x = some y) :
    ∀ l : List α, (l.filterMap f).Sublist (l.filterMap g) := by
  intro l
  induction l with
  | nil => simp
  | cons a rest ih =>
    cases hfa : f a with
    | some b =>
      rw [List.filterMap_cons_some hfa,
        List.filterMap_cons_some (h a b hfa)]
      exact ih.cons₂ b
    | none =>
      rw [List.filterMap_cons_none hfa]
      cases hga : g a with
      | some c => rw [List.filterMap_cons_some hga]; exact ih.cons c
      | none => rw [List.filterMap_cons_none hga]; exact ih

/-- Two role selectors that cannot both fire on one shape never yield the
same idx on a slide with pairwise-distinct placeholder idx keys. -/
theorem no_shared_idx (l : List Shape) (hN : (l.filterMap phIdx?).Nodup)
    (f g : Shape → Option Nat)
    (hf : ∀ sh y, f sh = some y → phIdx? sh = some y)
    (hg : ∀ sh y, g sh = some y → phIdx? sh = some y)
    (hfg : ∀ sh, (f sh).isSome → (g sh).isSome → False)
    (q : Nat) (hqf : q ∈ l.filterMap f) (hqg : q ∈ l.filterMap g) : False := by
  rcases List.mem_filterMap.mp hqf with ⟨sh1, h1, hf1⟩
  rcases List.mem_filterMap.mp hqg with ⟨sh2, h2, hg1⟩
  have e1 := find_eq_of_nodup l hN sh1 q h1 (hf sh1 q hf1)
  have e2 := find_eq_of_nodup l hN sh2 q h2 (hg sh2 q hg1)
  rw [e1] at e2
  injection e2 with e3
  subst e3
  exact hfg sh1 (by simp [hf1]) (by simp [hg1])

theorem bodySel_setTextSh (txt : String) (sh : Shape) (q : Nat)
    (h : bodySel sh = some q) : shapeText (setTextSh txt sh) = txt := by
  cases sh with
  | placeholder idx ty text pic l t w hh => rfl
  | picture => simp [bodySel] at h

theorem picSel_setPicSh (path : String) (sh : Shape) (q : Nat)
    (h : picSel sh = some q) : shapePic (setPicSh path sh) = some path := by
  cases sh with
  | placeholder idx ty text pic l t w hh => rfl
  | picture => simp [picSel] at h

theorem titleSel_setTextSh (txt : String) (sh : Shape) (q : Nat)
    (h : titleSel sh = some q) : shapeText (setTextSh txt sh) = txt := by
  cases sh with
  | placeholder idx ty text pic l t w hh => rfl
  | picture => simp [titleSel] at h

/-! ## Loop lemmas -/

theorem bodyLoop_id (b : PyStrList) (nb : Nat) :
    ∀ (idxs : List Nat) (i : Nat) (s : Slide),
      (bodyLoop b nb i idxs s).slide_id = s.slide_id := by
  intro idxs
  induction idxs with
  | nil => intro i s; rfl
  | cons idx rest ih =>
    intro i s
    simp only [bodyLoop]
    rw [ih]
    split <;> rfl

theorem bodyLoop_frame (b : PyStrList) (nb : Nat) :
    ∀ (idxs : List Nat) (i : Nat) (s : Slide) (q : Nat), q ∉ idxs →
      findPH (bodyLoop b nb i idxs s) q = findPH s q := by
  intro idxs
  induction idxs with
  | nil => intro i s q _; rfl
  | cons idx rest ih =>
    intro i s q hq
    have hq1 : q ≠ idx := fun hc => hq (hc ▸ List.mem_cons_self idx rest)
    have hq2 : q ∉ rest := fun hc => hq (List.mem_cons_of_mem idx hc)
    simp only [bodyLoop]
    rw [ih (i + 1) _ q hq2]
    split
    · rw [findPH_setText, if_neg hq1]
    · rw [findPH_remove, if_neg hq1]

theorem bodyLoop_get (b : PyStrList) (nb : Nat) :
    ∀ (idxs : List Nat), idxs.Nodup →
      ∀ (i : Nat) (s : Slide) (pos : Nat), pos < idxs.length →
        findPH (bodyLoop b nb i idxs s) (idxs.getD pos 0) =
          if i + pos < nb then
            (findPH s (idxs.getD pos 0)).map (setTextSh (b.get (i + pos)))
          else none := by
  intro idxs
  induction idxs with
  | nil => intro _ i s pos hpos; cases hpos
  | cons idx rest ih =>
    intro hN i s pos hpos
    have hnotin : idx ∉ rest := (List.nodup_cons.mp hN).1
    cases pos with
    | zero =>
      rw [List.getD_cons_zero]
      simp only [bodyLoop]
      rw [bodyLoop_frame b nb rest (i + 1) _ idx hnotin]
      by_cases hi : i < nb
      · rw [if_pos hi, findPH_setText, if_pos rfl]
        have : i + 0 = i := rfl
        rw [this, if_pos (by omega)]
      · rw [if_neg hi, findPH_remove, if_pos rfl, if_neg (by omega)]
    | succ p =>
      rw [List.getD_cons_succ]
      have hp : p < rest.length := by
        simpa using Nat.lt_of_succ_lt_succ hpos
      have hqmem : rest.getD p 0 ∈ rest := by
        rw [List.getD_eq_getElem rest 0 hp]
        exact List.getElem_mem hp
      have hne : rest.getD p 0 ≠ idx := fun hc => hnotin (hc ▸ hqmem)
      simp only [bodyLoop]
      rw [ih (List.nodup_cons.mp hN).2 (i + 1) _ p hp]
      have harith : i + 1 + p = i + (p + 1) := by omega
      rw [harith]
      split
      · split
        · rw [findPH_setText, if_neg hne]
        · rw [findPH_remove, if_neg hne]
      · rfl

theorem withinAdd_id (imgSize : String → Nat × Nat) (s : Slide) (q : Nat)
    (p : String) (s' : Slide)
    (h : _add_picture_within_placeholder imgSize s q p = .ok s') :
    s'.slide_id = s.slide_id := by
  unfold _add_picture_within_placeholder at h
  split at h
  · split at h
    · simp at h
    · injection h with h'
      subst h'
      rfl
  · injection h with h'
    subst h'
    rfl

theorem findPH_append_pic (s : Slide) (sh : Shape) (hsh : phIdx? sh = none)
    (sid : Nat) (q : Nat) :
    findPH ⟨s.shapes ++ [sh], sid⟩ q = findPH s q :=
  find_append_nonph q sh hsh s.shapes

theorem withinAdd_frame (imgSize : String → Nat × Nat) (s : Slide) (q : Nat)
    (p : String) (s' : Slide)
    (h : _add_picture_within_placeholder imgSize s q p = .ok s')
    (q' : Nat) (hne : q' ≠ q) : findPH s' q' = findPH s q' := by
  unfold _add_picture_within_placeholder at h
  split at h
  · split at h
    · simp at h
    · injection h with h'
      subst h'
      rw [findPH_remove, if_neg hne]
      apply findPH_append_pic
      rfl
  · injection h with h'
    subst h'
    rfl

theorem picLoop_id (imgSize : String → Nat × Nat) (ps : PyStrList) (np : Nat)
    (m : String) : ∀ (idxs : List Nat) (i : Nat) (s : Slide),
    ((picLoop imgSize ps np m i idxs s).1).slide_id = s.slide_id := by
  intro idxs
  induction idxs with
  | nil => intro i s; rfl
  | cons idx rest ih =>
    intro i s
    simp only [picLoop]
    split
    · split
      · rw [ih]; rfl
      · split
        · split
          · rename_i s' hs'
            rw [ih]
            exact withinAdd_id imgSize s idx (ps.get i) s' hs'
          · rfl
        · rw [ih]
    · rw [ih]; rfl

theorem picLoop_frame (imgSize : String → Nat × Nat) (ps : PyStrList) (np : Nat)
    (m : String) : ∀ (idxs : List Nat) (i : Nat) (s : Slide) (q : Nat), q ∉ idxs →
    findPH ((picLoop imgSize ps np m i idxs s).1) q = findPH s q := by
  intro idxs
  induction idxs with
  | nil => intro i s q _; rfl
  | cons idx rest ih =>
    intro i s q hq
    have hq1 : q ≠ idx := fun hc => hq (hc ▸ List.mem_cons_self idx rest)
    have hq2 : q ∉ rest := fun hc => hq (List.mem_cons_of_mem idx hc)
    simp only [picLoop]
    split
    · split
      · rw [ih (i + 1) _ q hq2, findPH_setPic, if_neg hq1]
      · split
        · split
          · rename_i s' hs'
            rw [ih (i + 1) _ q hq2]
            exact withinAdd_frame imgSize s idx (ps.get i) s' hs' q hq1
          · rfl
        · rw [ih (i + 1) _ q hq2]
    · rw [ih (i + 1) _ q hq2, findPH_remove, if_neg hq1]

theorem picLoop_fill_snd (imgSize : String → Nat × Nat) (ps : PyStrList) (np : Nat) :
    ∀ (idxs : List Nat) (i : Nat) (s : Slide),
      (picLoop imgSize ps np "fill_placeholder" i idxs s).2 = none := by
  intro idxs
  induction idxs with
  | nil => intro i s; rfl
  | cons idx rest ih =>
    intro i s
    simp only [picLoop, if_true]
    split
    · exact ih (i + 1) _
    · exact ih (i + 1) _

theorem picLoop_fill_get (imgSize : String → Nat × Nat) (ps : PyStrList) (np : Nat) :
    ∀ (idxs : List Nat), idxs.Nodup →
      ∀ (i : Nat) (s : Slide) (pos : Nat), pos < idxs.length →
        findPH ((picLoop imgSize ps np "fill_placeholder" i idxs s).1)
            (idxs.getD pos 0) =
          if i + pos < np then
            (findPH s (idxs.getD pos 0)).map (setPicSh (ps.get (i + pos)))
          else none := by
  intro idxs
  induction idxs with
  | nil => intro _ i s pos hpos; cases hpos
  | cons idx rest ih =>
    intro hN i s pos hpos
    have hnotin : idx ∉ rest := (List.nodup_cons.mp hN).1
    cases pos with
    | zero =>
      rw [List.getD_cons_zero]
      simp only [picLoop, if_true]
      by_cases hi : i < np
      · rw [if_pos hi,
          picLoop_frame imgSize ps np "fill_placeholder" rest (i + 1) _ idx hnotin,
          findPH_setPic, if_pos rfl]
        have h0 : i + 0 = i := rfl
        rw [h0, if_pos (by omega)]
      · rw [if_neg hi,
          picLoop_frame imgSize ps np "fill_placeholder" rest (i + 1) _ idx hnotin,
          findPH_remove, if_pos rfl, if_neg (by omega)]
    | succ p =>
      rw [List.getD_cons_succ]
      have hp : p < rest.length := by
        simpa using Nat.lt_of_succ_lt_succ hpos
      have hqmem : rest.getD p 0 ∈ rest := by
        rw [List.getD_eq_getElem rest 0 hp]
        exact List.getElem_mem hp
      have hne : rest.getD p 0 ≠ idx := fun hc => hnotin (hc ▸ hqmem)
      simp only [picLoop, if_true]
      have harith : i + 1 + p = i + (p + 1) := by omega
      by_cases hi : i < np
      · rw [if_pos hi, ih (List.nodup_cons.mp hN).2 (i + 1) _ p hp,
          harith, findPH_setPic, if_neg hne]
      · rw [if_neg hi, ih (List.nodup_cons.mp hN).2 (i + 1) _ p hp,
          harith, findPH_remove, if_neg hne]

theorem picLoop_unknown_snd (imgSize : String → Nat × Nat) (ps : PyStrList)
    (np : Nat) (m : String) (hm1 : ¬ m = "fill_placeholder")
    (hm2 : ¬ m = "within_placeholder") :
    ∀ (idxs : List Nat) (i : Nat) (s : Slide),
      (picLoop imgSize ps np m i idxs s).2 = none := by
  intro idxs
  induction idxs with
  | nil => intro i s; rfl
  | cons idx rest ih =>
    intro i s
    simp only [picLoop, if_neg hm1, if_neg hm2]
    split
    · exact ih (i + 1) _
    · exact ih (i + 1) _

theorem picLoop_unknown_get (imgSize : String → Nat × Nat) (ps : PyStrList)
    (np : Nat) (m : String) (hm1 : ¬ m = "fill_placeholder")
    (hm2 : ¬ m = "within_placeholder") :
    ∀ (idxs : List Nat), idxs.Nodup →
      ∀ (i : Nat) (s : Slide) (pos : Nat), pos < idxs.length →
        findPH ((picLoop imgSize ps np m i idxs s).1) (idxs.getD pos 0) =
          if i + pos < np then findPH s (idxs.getD pos 0) else none := by
  intro idxs
  induction idxs with
  | nil => intro _ i s pos hpos; cases hpos
  | cons idx rest ih =>
    intro hN i s pos hpos
    have hnotin : idx ∉ rest := (List.nodup_cons.mp hN).1
    cases pos with
    | zero =>
      rw [List.getD_cons_zero]
      simp only [picLoop, if_neg hm1, if_neg hm2]
      by_cases hi : i < np
      · rw [if_pos hi,
          picLoop_frame imgSize ps np m rest (i + 1) _ idx hnotin]
        have h0 : i + 0 = i := rfl
        rw [h0, if_pos (by omega)]
      · rw [if_neg hi,
          picLoop_frame imgSize ps np m rest (i + 1) _ idx hnotin,
          findPH_remove, if_pos rfl, if_neg (by omega)]
    | succ p =>
      rw [List.getD_cons_succ]
      have hp : p < rest.length := by
        simpa using Nat.lt_of_succ_lt_succ hpos
      have hqmem : rest.getD p 0 ∈ rest := by
        rw [List.getD_eq_getElem rest 0 hp]
        exact List.getElem_mem hp
      have hne : rest.getD p 0 ≠ idx := fun hc => hnotin (hc ▸ hqmem)
      simp only [picLoop, if_neg hm1, if_neg hm2]
      have harith : i + 1 + p = i + (p + 1) := by omega
      by_cases hi : i < np
      · rw [if_pos hi,
          ih (List.nodup_cons.mp hN).2 (i + 1) _ p hp, harith]
      · rw [if_neg hi, ih (List.nodup_cons.mp hN).2 (i + 1) _ p hp,
          harith, findPH_remove, if_neg hne]

/-! ## Plain picture shapes are untouched by text and removal operations -/

/-- The slide's plain (non-placeholder) picture shapes. -/
def picsOf (s : Slide) : List Shape := s.shapes.filter Shape.isPic

theorem isPic_setTextSh (t : String) (sh : Shape) :
    Shape.isPic (setTextSh t sh) = Shape.isPic sh := by cases sh <;> rfl

theorem isPic_setPicSh (p : String) (sh : Shape) :
    Shape.isPic (setPicSh p sh) = Shape.isPic sh := by cases sh <;> rfl

theorem pics_cond_map (q : Nat) (f : Shape → Shape)
    (hf : ∀ sh, Shape.isPic (f sh) = Shape.isPic sh) (l : List Shape) :
    (l.map (fun sh => if phIdx? sh = some q then f sh else sh)).filter Shape.isPic
      = l.filter Shape.isPic := by
  induction l with
  | nil => rfl
  | cons sh rest ih =>
    simp only [List.map_cons]
    by_cases hpic : Shape.isPic sh = true
    · have hnone : phIdx? sh = none := by
        cases sh <;> simp_all [Shape.isPic, phIdx?]
      rw [if_neg (by simp [hnone]), List.filter_cons_of_pos hpic,
        List.filter_cons_of_pos hpic, ih]
    · by_cases hq : phIdx? sh = some q
      · rw [if_pos hq, List.filter_cons_of_neg (by rw [hf]; simpa using hpic),
          List.filter_cons_of_neg (by simpa using hpic), ih]
      · rw [if_neg hq, List.filter_cons_of_neg (by simpa using hpic),
          List.filter_cons_of_neg (by simpa using hpic), ih]

theorem pics_remove_list (q : Nat) (l : List Shape) :
    (l.filter (fun sh => decide (¬ phIdx? sh = some q))).filter Shape.isPic
      = l.filter Shape.isPic := by
  induction l with
  | nil => rfl
  | cons sh rest ih =>
    by_cases hq : phIdx? sh = some q
    · have hpic : Shape.isPic sh = false := by
        cases sh <;> simp_all [phIdx?, Shape.isPic]
      rw [List.filter_cons_of_neg (by simp [hq]), ih,
        List.filter_cons_of_neg (by simp [hpic])]
    · rw [List.filter_cons_of_pos (by simp [hq])]
      by_cases hpic : Shape.isPic sh = true
      · rw [List.filter_cons_of_pos hpic, List.filter_cons_of_pos hpic, ih]
      · rw [List.filter_cons_of_neg (by simpa using hpic),
          List.filter_cons_of_neg (by simpa using hpic), ih]

theorem picsOf_setText (s : Slide) (q : Nat) (txt : String) :
    picsOf (setPlaceholderText s q txt) = picsOf s :=
  pics_cond_map q _ (isPic_setTextSh txt) s.shapes

theorem picsOf_setPic (s : Slide) (q : Nat) (path : String) :
    picsOf (setPlaceholderPic s q path) = picsOf s :=
  pics_cond_map q _ (isPic_setPicSh path) s.shapes

theorem picsOf_remove (s : Slide) (q : Nat) :
    picsOf (_remove_placeholder_from_slide s q) = picsOf s :=
  pics_remove_list q s.shapes

theorem picsOf_setTitleText (s : Slide) (txt : String) :
    picsOf (setTitleText s txt) = picsOf s := by
  unfold setTitleText
  cases shapesTitleIdx s with
  | some t => exact picsOf_setText s t txt
  | none => rfl

theorem picsOf_bodyLoop (b : PyStrList) (nb : Nat) :
    ∀ (idxs : List Nat) (i : Nat) (s : Slide),
      picsOf (bodyLoop b nb i idxs s) = picsOf s := by
  intro idxs
  induction idxs with
  | nil => intro i s; rfl
  | cons idx rest ih =>
    intro i s
    simp only [bodyLoop]
    rw [ih (i + 1)]
    split
    · exact picsOf_setText s idx _
    · exact picsOf_remove s idx

theorem picsOf_picLoop_unknown (imgSize : String → Nat × Nat) (ps : PyStrList)
    (np : Nat) (m : String) (hm1 : ¬ m = "fill_placeholder")
    (hm2 : ¬ m = "within_placeholder") :
    ∀ (idxs : List Nat) (i : Nat) (s : Slide),
      picsOf ((picLoop imgSize ps np m i idxs s).1) = picsOf s := by
  intro idxs
  induction idxs with
  | nil => intro i s; rfl
  | cons idx rest ih =>
    intro i s
    simp only [picLoop, if_neg hm1, if_neg hm2]
    split
    · exact ih (i + 1) s
    · rw [ih (i + 1)]
      exact picsOf_remove s idx

/-! ## Slide ids -/

theorem setText_id (s : Slide) (q : Nat) (txt : String) :
    (setPlaceholderText s q txt).slide_id = s.slide_id := rfl

theorem setTitleText_id (s : Slide) (txt : String) :
    (setTitleText s txt).slide_id = s.slide_id := by
  unfold setTitleText
  cases shapesTitleIdx s <;> rfl

theorem foldl_max_le_mem : ∀ (l : List Nat) (a : Nat), a ≤ l.foldl max a ∧
    ∀ x ∈ l, x ≤ l.foldl max a := by
  intro l
  induction l with
  | nil => intro a; exact ⟨Nat.le_refl a, by simp⟩
  | cons y ys ih =>
    intro a
    constructor
    · exact le_trans (Nat.le_max_left a y) (ih (max a y)).1
    · intro x hx
      rcases List.mem_cons.mp hx with rfl | hx'
      · exact le_trans (Nat.le_max_right a x) (ih (max a x)).1
      · exact (ih (max a y)).2 x hx'

/-- On a deck whose slides carry pairwise-distinct ids that are at least 256
(the document model's invariant), the freshly allocated id exceeds the
number of slides. -/
theorem nextSlideId_gt_length (prs : Prs)
    (hids : (prs.slides.map Slide.slide_id).Nodup)
    (hge : ∀ s ∈ prs.slides, 256 ≤ s.slide_id) :
    prs.slides.length < nextSlideId prs := by
  set ids := prs.slides.map Slide.slide_id with hidsdef
  set M := ids.foldl max 255 with hM
  have hlen : prs.slides.length = ids.length := by simp [hidsdef]
  have hsub : ids.toFinset ⊆ Finset.Icc 256 M := by
    intro x hx
    have hxmem : x ∈ ids := List.mem_toFinset.mp hx
    rcases List.mem_map.mp hxmem with ⟨s, hs, rfl⟩
    refine Finset.mem_Icc.mpr ⟨hge s hs, ?_⟩
    exact (foldl_max_le_mem ids 255).2 _ hxmem
  have hcard : ids.length = ids.toFinset.card :=
    (List.toFinset_card_of_nodup hids).symm
  have hle : ids.toFinset.card ≤ (Finset.Icc 256 M).card :=
    Finset.card_le_card hsub
  rw [Nat.card_Icc] at hle
  have hnext : nextSlideId prs = M + 1 := by
    rw [hM, hidsdef, List.foldl_map]
    rfl
  omega

/-! ## The layout dictionary -/

theorem dictInsert_fresh {α β : Type} [DecidableEq α] (d : List (α × β)) (k : α)
    (v : β) (h : k ∉ d.map Prod.fst) : dictInsert d k v = d ++ [(k, v)] := by
  unfold dictInsert
  rw [if_neg]
  intro hc
  rcases List.any_eq_true.mp hc with ⟨p, hp, hpk⟩
  exact h (List.mem_map.mpr ⟨p, hp, of_decide_eq_true hpk⟩)

theorem dictFold_fresh : ∀ (ps : List (Nat × Layout)) (d : List (String × Nat)),
    (ps.map (fun p => p.2.name)).Nodup →
    (∀ p ∈ ps, p.2.name ∉ d.map Prod.fst) →
    ps.foldl (fun d p => dictInsert d p.2.name p.1) d =
      d ++ ps.map (fun p => (p.2.name, p.1)) := by
  intro ps
  induction ps with
  | nil => intro d _ _; simp
  | cons p rest ih =>
    intro d hN hfresh
    simp only [List.foldl_cons]
    rw [dictInsert_fresh d p.2.name p.1 (hfresh p (List.mem_cons_self p rest))]
    rw [ih (d ++ [(p.2.name, p.1)]) (List.nodup_cons.mp (by simpa using hN)).2]
    · simp
    · intro p' hp'
      simp only [List.map_append, List.mem_append]
      rintro (hin | hin)
      · exact hfresh p' (List.mem_cons_of_mem p hp') hin
      · have : p'.2.name = p.2.name := by simpa using hin
        have hne : p.2.name ∉ rest.map (fun r => r.2.name) :=
          (List.nodup_cons.mp (by simpa using hN)).1
        exact hne (this ▸ List.mem_map.mpr ⟨p', hp', rfl⟩)

theorem enum_names (ls : List Layout) :
    ls.enum.map (fun p => p.2.name) = ls.map Layout.name := by
  have h1 : ls.enum.map (fun p => p.2.name) =
      (ls.enum.map Prod.snd).map Layout.name := by
    rw [List.map_map]; rfl
  rw [h1, List.enum_map_snd]

/-! ## The title accessor -/

theorem isTitlePH_phIdx_titleSel (sh : Shape) (ht : isTitlePH sh = true) :
    titleSel sh = phIdx? sh := by
  cases sh with
  | placeholder idx ty txt pic l t w hh =>
    cases ty <;> simp_all [isTitlePH, titleSel, phIdx?]
  | picture => simp [isTitlePH] at ht

theorem shapesTitleIdx_eq_head : ∀ l : List Shape,
    ((l.find? isTitlePH).bind phIdx?) = (l.filterMap titleSel).head? := by
  intro l
  induction l with
  | nil => rfl
  | cons sh rest ih =>
    by_cases ht : isTitlePH sh = true
    · rw [List.find?_cons_of_pos _ ht]
      have hsel := isTitlePH_phIdx_titleSel sh ht
      cases hp : phIdx? sh with
      | some idx =>
        rw [List.filterMap_cons_some (hsel.trans hp)]
        simp [hp]
      | none =>
        exfalso
        cases sh with
        | placeholder => simp [phIdx?] at hp
        | picture => simp [isTitlePH] at ht
    · rw [List.find?_cons_of_neg _ (by simpa using ht)]
      have hsel : titleSel sh = none := by
        cases sh with
        | placeholder idx ty txt pic l t w hh =>
          cases ty <;> simp_all [isTitlePH, titleSel]
        | picture => rfl
      rw [List.filterMap_cons_none hsel]
      exact ih

theorem head_eq_getLast_of_le_one {α : Type} (l : List α) (h : l.length ≤ 1) :
    l.head? = l.getLast? := by
  cases l with
  | nil => rfl
  | cons x xs =>
    cases xs with
    | nil => rfl
    | cons y ys => simp at h

/-! ## Fixtures: a concrete test template -/

def mkTitle (idx : Nat) : Shape := .placeholder idx .title "" none 0 0 100 100

def mkBody (idx : Nat) : Shape := .placeholder idx .body "" none 0 0 100 100

def mkPicPH (idx : Nat) : Shape := .placeholder idx .picture "" none 10 20 300 200

/-- A concrete template mirroring the test deck
`slidepack_gen_test_layouts_20210126.pptx`: shapes are listed in the
document's native order (reverse of authoring order). -/
def testPrs : Prs :=
  ⟨[⟨"no_placeholders", []⟩,
    ⟨"title_only", [mkTitle 0]⟩,
    ⟨"title_2txt", [mkBody 2, mkBody 1, mkTitle 0]⟩,
    ⟨"title_2pic_3txt",
      [mkPicPH 6, mkPicPH 5, mkBody 3, mkBody 2, mkBody 1, mkTitle 0]⟩],
   []⟩

/-- A template with two layouts sharing one name. -/
def dupPrs : Prs := ⟨[⟨"A", []⟩, ⟨"A", []⟩], []⟩

/-- A stand-in for `Image.open(...).size`. -/
def noImg : String → Nat × Nat := fun _ => (1, 1)

/-- The slide at the end of the deck. -/
def lastSlide (p : Prs) : Slide := (p.slides.getLast?).getD ⟨[], 0⟩

theorem lastSlide_append (prs : Prs) (s : Slide) :
    lastSlide { prs with slides := prs.slides ++ [s] } = s := by
  unfold lastSlide
  simp

/-! ## Unfolding `add_slide` on its main paths -/

/-- The `Update Title` step of `add_slide`, as a function of the classified
title entry. -/
def titleStep (Pt : Option Nat) (title : String) (slide : Slide) : Slide :=
  match Pt with
  | some t =>
    if title ≠ "" then setTitleText slide title
    else _remove_placeholder_from_slide slide t
  | none => slide

theorem titleStep_id (Pt : Option Nat) (title : String) (slide : Slide) :
    (titleStep Pt title slide).slide_id = slide.slide_id := by
  cases Pt with
  | none => rfl
  | some t =>
    simp only [titleStep]
    split
    · exact setTitleText_id slide title
    · rfl

theorem titleStep_picsOf (Pt : Option Nat) (title : String) (slide : Slide) :
    picsOf (titleStep Pt title slide) = picsOf slide := by
  cases Pt with
  | none => rfl
  | some t =>
    simp only [titleStep]
    split
    · exact picsOf_setTitleText slide title
    · exact picsOf_remove slide t

theorem titleStep_frame (Pt : Option Nat) (title : String) (slide : Slide)
    (q : Nat) (hq1 : ∀ t, Pt = some t → q ≠ t)
    (hq2 : ∀ t', shapesTitleIdx slide = some t' → q ≠ t') :
    findPH (titleStep Pt title slide) q = findPH slide q := by
  cases Pt with
  | none => rfl
  | some t =>
    simp only [titleStep]
    split
    · unfold setTitleText
      cases hst : shapesTitleIdx slide with
      | some t' => simp only [hst]; rw [findPH_setText, if_neg (hq2 t' hst)]
      | none => simp only [hst]
    · rw [findPH_remove, if_neg (hq1 t rfl)]

theorem add_slide_success_eq (prs : Prs) (layout_name title : String)
    (bodies pictures : PyStrList) (m : String) (imgSize : String → Nat × Nat)
    (li : Nat) (hres : _get_slide_layout_idx prs layout_name = .ok li)
    (htitle : ¬((get_slide_placeholders (theNewSlide prs li)).title = none ∧
      title ≠ ""))
    (hk : bodies.len ≤ (get_slide_placeholders (theNewSlide prs li)).body.length)
    (hj : pictures.len ≤
      (get_slide_placeholders (theNewSlide prs li)).picture.length) :
    add_slide prs layout_name title bodies pictures m imgSize =
      (match picLoop imgSize pictures pictures.len m 0
          (get_slide_placeholders (theNewSlide prs li)).picture
          (bodyLoop bodies bodies.len 0
            (get_slide_placeholders (theNewSlide prs li)).body
            (titleStep (get_slide_placeholders (theNewSlide prs li)).title title
              (theNewSlide prs li))) with
       | (s3, some e) => ({ prs with slides := prs.slides ++ [s3] }, .error e)
       | (s3, none) =>
         ({ prs with slides := prs.slides ++ [s3] },
          .ok (theNewSlide prs li).slide_id)) := by
  simp only [add_slide, hres, titleStep]
  rw [if_neg htitle, if_neg (not_not_intro hk), if_neg (not_not_intro hj)]

theorem add_slide_titlefail_eq (prs : Prs) (layout_name title : String)
    (bodies pictures : PyStrList) (m : String) (imgSize : String → Nat × Nat)
    (li : Nat) (hres : _get_slide_layout_idx prs layout_name = .ok li)
    (ht : (get_slide_placeholders (theNewSlide prs li)).title = none ∧
      title ≠ "") :
    add_slide prs layout_name title bodies pictures m imgSize =
      ({ prs with slides := prs.slides ++ [theNewSlide prs li] },
       .error (.assertionError "Title provided but no title placeholder exists")) := by
  simp only [add_slide, hres]
  rw [if_pos ht]

theorem add_slide_bodyfail_eq (prs : Prs) (layout_name title : String)
    (bodies pictures : PyStrList) (m : String) (imgSize : String → Nat × Nat)
    (li : Nat) (hres : _get_slide_layout_idx prs layout_name = .ok li)
    (htitle : ¬((get_slide_placeholders (theNewSlide prs li)).title = none ∧
      title ≠ ""))
    (hk : ¬ bodies.len ≤ (get_slide_placeholders (theNewSlide prs li)).body.length) :
    add_slide prs layout_name title bodies pictures m imgSize =
      ({ prs with slides := prs.slides ++ [theNewSlide prs li] },
       .error (.assertionError "Body: more strings provided than placeholders exist")) := by
  simp only [add_slide, hres]
  rw [if_neg htitle, if_pos hk]

theorem add_slide_picfail_eq (prs : Prs) (layout_name title : String)
    (bodies pictures : PyStrList) (m : String) (imgSize : String → Nat × Nat)
    (li : Nat) (hres : _get_slide_layout_idx prs layout_name = .ok li)
    (htitle : ¬((get_slide_placeholders (theNewSlide prs li)).title = none ∧
      title ≠ ""))
    (hk : bodies.len ≤ (get_slide_placeholders (theNewSlide prs li)).body.length)
    (hj : ¬ pictures.len ≤
      (get_slide_placeholders (theNewSlide prs li)).picture.length) :
    add_slide prs layout_name title bodies pictures m imgSize =
      ({ prs with slides := prs.slides ++ [theNewSlide prs li] },
       .error (.assertionError "Pictures: more provided than placeholders exist")) := by
  simp only [add_slide, hres]
  rw [if_neg htitle, if_neg (not_not_intro hk), if_pos hj]

/-! ## Role exclusivity and membership helpers -/

theorem bodySel_picSel_excl (sh : Shape) :
    (bodySel sh).isSome → (picSel sh).isSome → False := by
  cases sh with
  | placeholder idx ty txt pic l t w hh => cases ty <;> simp [bodySel, picSel]
  | picture => simp [bodySel]

theorem bodySel_titleSel_excl (sh : Shape) :
    (bodySel sh).isSome → (titleSel sh).isSome → False := by
  cases sh with
  | placeholder idx ty txt pic l t w hh => cases ty <;> simp [bodySel, titleSel]
  | picture => simp [bodySel]

theorem picSel_titleSel_excl (sh : Shape) :
    (picSel sh).isSome → (titleSel sh).isSome → False := by
  cases sh with
  | placeholder idx ty txt pic l t w hh => cases ty <;> simp [picSel, titleSel]
  | picture => simp [picSel]

theorem mem_of_getLast_eq {α : Type} :
    ∀ (l : List α) (a : α), l.getLast? = some a → a ∈ l := by
  intro l
  induction l with
  | nil => intro a h; simp at h
  | cons x xs ih =>
    intro a h
    cases xs with
    | nil =>
      have : x = a := by simpa [List.getLast?] using h
      exact this ▸ List.mem_cons_self x []
    | cons y ys =>
      rw [List.getLast?_cons_cons] at h
      exact List.mem_cons_of_mem x (ih a h)

theorem mem_of_head_eq {α : Type} (l : List α) (a : α) (h : l.head? = some a) :
    a ∈ l := by
  cases l with
  | nil => simp at h
  | cons x xs =>
    have : x = a := by simpa using h
    exact this ▸ List.mem_cons_self x xs

/-! ## The binary64 rounding function and the fit calculator in closed form -/

/-- `Int.log 2` is characterized by the enclosing power-of-two interval. -/
theorem int_log_eq (q : ℚ) (e : ℤ) (hq : 0 < q)
    (h1 : (2:ℚ) ^ e ≤ q) (h2 : q < (2:ℚ) ^ (e + 1)) : Int.log 2 q = e := by
  have hb : 1 < (2:ℕ) := by norm_num
  have ha : e ≤ Int.log 2 q := (Int.zpow_le_iff_le_log hb hq).mp (by exact_mod_cast h1)
  have hc : Int.log 2 q < e + 1 := (Int.lt_zpow_iff_log_lt hb hq).mp (by exact_mod_cast h2)
  omega

theorem rnd53_eq_floor (m : ℚ) (n : ℤ) (hfl : ⌊m⌋ = n) (hlt : m - (n : ℚ) < 1/2) :
    rnd53 m = n := by
  unfold rnd53
  rw [hfl, if_pos hlt]

theorem rnd53_eq_ceil (m : ℚ) (n : ℤ) (hfl : ⌊m⌋ = n) (hgt : 1/2 < m - (n : ℚ)) :
    rnd53 m = n + 1 := by
  unfold rnd53
  rw [hfl, if_neg (by linarith), if_pos hgt]

theorem rnd53_le (m : ℚ) : (rnd53 m : ℚ) ≤ m + 1/2 := by
  have h0 := Int.floor_le m
  have h1 := Int.lt_floor_add_one m
  unfold rnd53
  split
  · linarith
  · split
    · push_cast
      linarith
    · split
      · linarith
      · push_cast
        linarith

theorem le_rnd53 (m : ℚ) : ⌊m⌋ ≤ rnd53 m := by
  unfold rnd53
  split
  · exact le_refl _
  · split
    · omega
    · split
      · exact le_refl _
      · omega

theorem rnd53_natCast (N : ℕ) : rnd53 ((N : ℚ)) = (N : ℤ) := by
  apply rnd53_eq_floor
  · exact Int.floor_natCast N
  · push_cast
    norm_num

theorem fl_zero : fl 0 = 0 := by
  unfold fl
  rw [if_pos rfl]

/-- Evaluation kit for `fl` at a concrete positive rational: supply the
exponent, the rounded significand and the resulting value. -/
theorem fl_eval_pos (q : ℚ) (e n : ℤ) (v : ℚ) (hq : 0 < q)
    (hlog : Int.log 2 q = e)
    (hrnd : rnd53 (q * 2 ^ ((52 : ℤ) - e)) = n)
    (hv : (n : ℚ) * 2 ^ (e - 52) = v) : fl q = v := by
  unfold fl flPos
  rw [if_neg hq.ne', if_pos hq, hlog, hrnd, hv]

theorem fl_pos (q : ℚ) (hq : 0 < q) : 0 < fl q := by
  have hb : 1 < (2:ℕ) := by norm_num
  have hlow : (2:ℚ) ^ (Int.log 2 q) ≤ q := by
    exact_mod_cast Int.zpow_log_le_self hb hq
  unfold fl flPos
  rw [if_neg hq.ne', if_pos hq]
  have hp2 : (0:ℚ) < 2 ^ (Int.log 2 q - 52) := zpow_pos (by norm_num) _
  have hstep : (2:ℚ) ^ (Int.log 2 q) * 2 ^ ((52:ℤ) - Int.log 2 q) = 2 ^ (52:ℤ) := by
    rw [← zpow_add₀ (by norm_num : (2:ℚ) ≠ 0)]
    congr 1
    ring
  have hm1 : (1:ℚ) ≤ q * 2 ^ ((52:ℤ) - Int.log 2 q) := by
    have hup : (2:ℚ) ^ (52:ℤ) ≤ q * 2 ^ ((52:ℤ) - Int.log 2 q) := by
      rw [← hstep]
      exact mul_le_mul_of_nonneg_right hlow (zpow_pos (by norm_num : (0:ℚ) < 2) _).le
    have h2 : (1:ℚ) ≤ (2:ℚ) ^ (52:ℤ) := by norm_num
    linarith
  have hfl1 : (1:ℤ) ≤ ⌊q * 2 ^ ((52:ℤ) - Int.log 2 q)⌋ := by
    rw [Int.le_floor]
    exact_mod_cast hm1
  have hrnd1 : (1:ℤ) ≤ rnd53 (q * 2 ^ ((52:ℤ) - Int.log 2 q)) :=
    le_trans hfl1 (le_rnd53 _)
  have hcast : (1:ℚ) ≤ (rnd53 (q * 2 ^ ((52:ℤ) - Int.log 2 q)) : ℚ) := by
    exact_mod_cast hrnd1
  exact mul_pos (by linarith) hp2

theorem fl_nonneg (q : ℚ) (hq : 0 ≤ q) : 0 ≤ fl q := by
  rcases eq_or_lt_of_le hq with h | h
  · rw [← h, fl_zero]
  · exact (fl_pos q h).le

/-- Rounding up overshoots by at most half an ulp: a relative error bound. -/
theorem fl_le_of_pos (q : ℚ) (hq : 0 < q) : fl q ≤ q + q * eps53 := by
  have hb : 1 < (2:ℕ) := by norm_num
  have hlow : (2:ℚ) ^ (Int.log 2 q) ≤ q := by
    exact_mod_cast Int.zpow_log_le_self hb hq
  unfold fl flPos
  rw [if_neg hq.ne', if_pos hq]
  set ee := Int.log 2 q with hee
  have hp2 : (0:ℚ) < 2 ^ (ee - 52) := zpow_pos (by norm_num) _
  have hcomb : (2:ℚ) ^ ((52:ℤ) - ee) * 2 ^ (ee - 52) = 1 := by
    rw [← zpow_add₀ (by norm_num : (2:ℚ) ≠ 0)]
    have h0 : (52:ℤ) - ee + (ee - 52) = 0 := by ring
    rw [h0, zpow_zero]
  have hr : (rnd53 (q * 2 ^ ((52:ℤ) - ee)) : ℚ) ≤ q * 2 ^ ((52:ℤ) - ee) + 1/2 :=
    rnd53_le _
  have hL : (1/2 : ℚ) * 2 ^ (ee - 52) = 2 ^ (ee - 53) := by
    rw [show (1/2:ℚ) = 2 ^ ((-1):ℤ) from by norm_num,
      ← zpow_add₀ (by norm_num : (2:ℚ) ≠ 0)]
    congr 1
    ring
  have hR : (2:ℚ) ^ ee * eps53 = 2 ^ (ee - 53) := by
    unfold eps53
    rw [← zpow_add₀ (by norm_num : (2:ℚ) ≠ 0)]
    congr 1
  have heps : (0:ℚ) ≤ eps53 := by
    unfold eps53
    positivity
  calc (rnd53 (q * 2 ^ ((52:ℤ) - ee)) : ℚ) * 2 ^ (ee - 52)
      ≤ (q * 2 ^ ((52:ℤ) - ee) + 1/2) * 2 ^ (ee - 52) :=
        mul_le_mul_of_nonneg_right hr hp2.le
    _ = q + (1/2) * 2 ^ (ee - 52) := by
        rw [add_mul, mul_assoc, hcomb, mul_one]
    _ = q + 2 ^ (ee - 53) := by rw [hL]
    _ = q + 2 ^ ee * eps53 := by rw [hR]
    _ ≤ q + q * eps53 := by
        have := mul_le_mul_of_nonneg_right hlow heps
        linarith

/-- Binary64 represents the integers up to `2 ^ 52` (indeed `2 ^ 53`)
exactly. -/
theorem fl_natCast (n : ℕ) (h0 : 0 < n) (hle : n ≤ 2 ^ 52) : fl ((n : ℚ)) = (n : ℚ) := by
  have hq : (0:ℚ) < (n:ℚ) := by exact_mod_cast h0
  have hb : 1 < (2:ℕ) := by norm_num
  have h1 : (n:ℚ) < (2:ℚ) ^ (53:ℤ) := by
    have hle2 : n ≤ 4503599627370496 := by norm_num at hle ⊢; omega
    have hle3 : (n:ℚ) ≤ 4503599627370496 := by exact_mod_cast hle2
    have : (4503599627370496:ℚ) < (2:ℚ) ^ (53:ℤ) := by norm_num
    linarith
  have he52 : Int.log 2 ((n:ℚ)) ≤ 52 := by
    have h1n : (n:ℚ) < ((2:ℕ):ℚ) ^ (53:ℤ) := by exact_mod_cast h1
    have := (Int.lt_zpow_iff_log_lt hb hq).mp h1n
    omega
  have he0 : 0 ≤ Int.log 2 ((n:ℚ)) := by
    have h1q : ((2:ℕ):ℚ) ^ (0:ℤ) ≤ (n:ℚ) := by
      rw [zpow_zero]
      exact_mod_cast h0
    exact (Int.zpow_le_iff_le_log hb hq).mp h1q
  set e := Int.log 2 ((n:ℚ)) with hee
  set k := (52 - e).toNat with hk0
  have hk : (52:ℤ) - e = (k:ℤ) := by omega
  have hm_int : (n:ℚ) * 2 ^ ((52:ℤ) - e) = ((n * 2 ^ k : ℕ) : ℚ) := by
    rw [hk]
    push_cast
    rw [zpow_natCast]
  have hrnd : rnd53 ((n:ℚ) * 2 ^ ((52:ℤ) - e)) = ((n * 2 ^ k : ℕ) : ℤ) := by
    rw [hm_int]
    exact rnd53_natCast _
  apply fl_eval_pos (n:ℚ) e ((n * 2 ^ k : ℕ) : ℤ) (n:ℚ) hq hee.symm hrnd
  have hzk : ((k:ℤ)) + (e - 52) = 0 := by omega
  calc (((n * 2 ^ k : ℕ) : ℤ) : ℚ) * 2 ^ (e - 52)
      = (n:ℚ) * ((2:ℚ) ^ (k:ℕ) * 2 ^ (e - 52)) := by
        push_cast
        ring
    _ = (n:ℚ) * ((2:ℚ) ^ ((k:ℕ):ℤ) * 2 ^ (e - 52)) := by rw [zpow_natCast]
    _ = (n:ℚ) * (2:ℚ) ^ (((k:ℕ):ℤ) + (e - 52)) := by
        rw [zpow_add₀ (by norm_num : (2:ℚ) ≠ 0)]
    _ = (n:ℚ) := by rw [hzk, zpow_zero, mul_one]

theorem calc_fit_eq (w h W H : Nat) (hzero : ¬(w = 0 ∨ h = 0)) :
    _calc_max_image_height_within_placeholder (w, h) (W, H) =
      .ok (⌊fl (fl (w : ℚ) * min (fl ((W : ℚ) / (w : ℚ))) (fl ((H : ℚ) / (h : ℚ))))⌋.toNat,
           ⌊fl (fl (h : ℚ) * min (fl ((W : ℚ) / (w : ℚ))) (fl ((H : ℚ) / (h : ℚ))))⌋.toNat) := by
  show (if w = 0 ∨ h = 0 then (Except.error PErr.zeroDivisionError : Except PErr (Nat × Nat))
        else .ok (⌊fl (fl (w : ℚ) * min (fl ((W : ℚ) / (w : ℚ))) (fl ((H : ℚ) / (h : ℚ))))⌋.toNat,
                  ⌊fl (fl (h : ℚ) * min (fl ((W : ℚ) / (w : ℚ))) (fl ((H : ℚ) / (h : ℚ))))⌋.toNat)) = _
  rw [if_neg hzero]

/-! ## Concrete binary64 evaluations

Each one pins `fl` at one value by exhibiting the binade exponent and the
rounded 53-bit significand. -/

theorem fl_c1 : fl ((1:ℚ)) = 1 :=
  fl_eval_pos _ 0 4503599627370496 _ (by norm_num)
    (int_log_eq _ _ (by norm_num) (by norm_num) (by norm_num))
    (rnd53_eq_floor _ _ (by norm_num) (by norm_num))
    (by norm_num)

theorem fl_c49 : fl ((49:ℚ)) = 49 :=
  fl_eval_pos _ 5 6896136929411072 _ (by norm_num)
    (int_log_eq _ _ (by norm_num) (by norm_num) (by norm_num))
    (rnd53_eq_floor _ _ (by norm_num) (by norm_num))
    (by norm_num)

theorem fl_c1000 : fl ((1000:ℚ)) = 1000 :=
  fl_eval_pos _ 9 8796093022208000 _ (by norm_num)
    (int_log_eq _ _ (by norm_num) (by norm_num) (by norm_num))
    (rnd53_eq_floor _ _ (by norm_num) (by norm_num))
    (by norm_num)

theorem fl_c500 : fl ((500:ℚ)) = 500 :=
  fl_eval_pos _ 8 8796093022208000 _ (by norm_num)
    (int_log_eq _ _ (by norm_num) (by norm_num) (by norm_num))
    (rnd53_eq_floor _ _ (by norm_num) (by norm_num))
    (by norm_num)

/-- `1/49` rounds down: the double is `5882252574524729 * 2 ^ (-58)`. -/
theorem fl_one_div_49 : fl ((1:ℚ)/(49:ℚ)) = 5882252574524729 / 2 ^ 58 :=
  fl_eval_pos _ (-6) 5882252574524729 _ (by norm_num)
    (int_log_eq _ _ (by norm_num) (by norm_num) (by norm_num))
    (rnd53_eq_floor _ _ (by norm_num) (by norm_num))
    (by norm_num)

/-- `49 * (1/49)` evaluates to the double just below `1`
(`0.9999999999999999`), the heart of the truncation counterexample. -/
theorem fl_49_inv_prod :
    fl ((49:ℚ) * (5882252574524729 / 2 ^ 58)) = 9007199254740991 / 2 ^ 53 :=
  fl_eval_pos _ (-1) 9007199254740991 _ (by norm_num)
    (int_log_eq _ _ (by norm_num) (by norm_num) (by norm_num))
    (rnd53_eq_floor _ _ (by norm_num) (by norm_num))
    (by norm_num)

/-- `1200/1000` is not a double; it rounds down to
`5404319552844595 * 2 ^ (-52)`. -/
theorem fl_six_fifths : fl ((1200:ℚ)/(1000:ℚ)) = 5404319552844595 / 2 ^ 52 :=
  fl_eval_pos _ 0 5404319552844595 _ (by norm_num)
    (int_log_eq _ _ (by norm_num) (by norm_num) (by norm_num))
    (rnd53_eq_floor _ _ (by norm_num) (by norm_num))
    (by norm_num)

theorem fl_c4 : fl ((2000:ℚ)/(500:ℚ)) = 4 :=
  fl_eval_pos _ 2 4503599627370496 _ (by norm_num)
    (int_log_eq _ _ (by norm_num) (by norm_num) (by norm_num))
    (rnd53_eq_floor _ _ (by norm_num) (by norm_num))
    (by norm_num)

/-- `1000 * (1200/1000 as a double)` rounds back up to exactly `1200`. -/
theorem fl_prod_w1 : fl ((1000:ℚ) * (5404319552844595 / 2 ^ 52)) = 1200 :=
  fl_eval_pos _ 10 (5277655813324799 + 1) _ (by norm_num)
    (int_log_eq _ _ (by norm_num) (by norm_num) (by norm_num))
    (rnd53_eq_ceil _ _ (by norm_num) (by norm_num))
    (by norm_num)

/-- `500 * (1200/1000 as a double)` rounds back up to exactly `600`. -/
theorem fl_prod_h1 : fl ((500:ℚ) * (5404319552844595 / 2 ^ 52)) = 600 :=
  fl_eval_pos _ 9 (5277655813324799 + 1) _ (by norm_num)
    (int_log_eq _ _ (by norm_num) (by norm_num) (by norm_num))
    (rnd53_eq_ceil _ _ (by norm_num) (by norm_num))
    (by norm_num)

theorem fl_c3 : fl ((3000:ℚ)/(1000:ℚ)) = 3 :=
  fl_eval_pos _ 1 6755399441055744 _ (by norm_num)
    (int_log_eq _ _ (by norm_num) (by norm_num) (by norm_num))
    (rnd53_eq_floor _ _ (by norm_num) (by norm_num))
    (by norm_num)

theorem fl_c2 : fl ((1000:ℚ)/(500:ℚ)) = 2 :=
  fl_eval_pos _ 1 4503599627370496 _ (by norm_num)
    (int_log_eq _ _ (by norm_num) (by norm_num) (by norm_num))
    (rnd53_eq_floor _ _ (by norm_num) (by norm_num))
    (by norm_num)

theorem fl_prod_w2 : fl ((1000:ℚ) * 2) = 2000 :=
  fl_eval_pos _ 10 8796093022208000 _ (by norm_num)
    (int_log_eq _ _ (by norm_num) (by norm_num) (by norm_num))
    (rnd53_eq_floor _ _ (by norm_num) (by norm_num))
    (by norm_num)

theorem fl_prod_h2 : fl ((500:ℚ) * 2) = 1000 :=
  fl_eval_pos _ 9 8796093022208000 _ (by norm_num)
    (int_log_eq _ _ (by norm_num) (by norm_num) (by norm_num))
    (rnd53_eq_floor _ _ (by norm_num) (by norm_num))
    (by norm_num)

theorem fl_c4b : fl ((4000:ℚ)/(1000:ℚ)) = 4 :=
  fl_eval_pos _ 2 4503599627370496 _ (by norm_num)
    (int_log_eq _ _ (by norm_num) (by norm_num) (by norm_num))
    (rnd53_eq_floor _ _ (by norm_num) (by norm_num))
    (by norm_num)

theorem fl_prod_w3 : fl ((1000:ℚ) * 4) = 4000 :=
  fl_eval_pos _ 11 8796093022208000 _ (by norm_num)
    (int_log_eq _ _ (by norm_num) (by norm_num) (by norm_num))
    (rnd53_eq_floor _ _ (by norm_num) (by norm_num))
    (by norm_num)

theorem fl_prod_h3 : fl ((500:ℚ) * 4) = 2000 :=
  fl_eval_pos _ 10 8796093022208000 _ (by norm_num)
    (int_log_eq _ _ (by norm_num) (by norm_num) (by norm_num))
    (rnd53_eq_floor _ _ (by norm_num) (by norm_num))
    (by norm_num)

/-- A 49-pixel-square image in a 1-pixel-square container: the computed
scale is the double below `1/49`, the products land on the double
`0.9999999999999999` just below `1`, and `int()` truncates both to `0`. -/
theorem calc_fit_49 :
    _calc_max_image_height_within_placeholder (49, 49) (1, 1) = .ok (0, 0) := by
  rw [calc_fit_eq 49 49 1 1 (by norm_num)]
  push_cast
  rw [min_self, fl_c49, fl_one_div_49, fl_49_inv_prod]
  norm_num

theorem calc_fit_vec1 :
    _calc_max_image_height_within_placeholder (1000, 500) (1200, 2000) = .ok (1200, 600) := by
  rw [calc_fit_eq 1000 500 1200 2000 (by norm_num)]
  push_cast
  rw [fl_c1000, fl_c500, fl_six_fifths, fl_c4,
    min_eq_left (by norm_num : (5404319552844595 / 2 ^ 52 : ℚ) ≤ 4),
    fl_prod_w1, fl_prod_h1]
  norm_num
  omega

theorem calc_fit_vec2 :
    _calc_max_image_height_within_placeholder (1000, 500) (3000, 1000) = .ok (2000, 1000) := by
  rw [calc_fit_eq 1000 500 3000 1000 (by norm_num)]
  push_cast
  rw [fl_c1000, fl_c500, fl_c3, fl_c2,
    min_eq_right (by norm_num : (2:ℚ) ≤ 3),
    fl_prod_w2, fl_prod_h2]
  norm_num
  omega

theorem calc_fit_vec3 :
    _calc_max_image_height_within_placeholder (1000, 500) (4000, 2000) = .ok (4000, 2000) := by
  rw [calc_fit_eq 1000 500 4000 2000 (by norm_num)]
  push_cast
  rw [fl_c1000, fl_c500, fl_c4b, fl_c4, min_self, fl_prod_w3, fl_prod_h3]
  norm_num
  omega

/-- One axis of the fit bound: scaling a positive side `a` by any factor at
most the rounded ratio `fl (A / a)` and rounding the product stays below
`A + 1`, hence truncates to at most `A`, as long as `A ≤ 2 ^ 50` keeps the
accumulated relative error below one pixel. -/
theorem fl_scale_le (a : ℚ) (A : ℕ) (S : ℚ) (ha : 0 < a) (hS0 : 0 < S)
    (hA : 0 < A) (hA50 : A ≤ 2 ^ 50)
    (hSle : S ≤ fl ((A : ℚ) / a)) :
    ⌊fl (a * S)⌋.toNat ≤ A := by
  have hAQ : (0:ℚ) < (A:ℚ) := by exact_mod_cast hA
  have hdiv : (0:ℚ) < (A:ℚ)/a := div_pos hAQ ha
  have hepsv : eps53 = 1/9007199254740992 := by
    unfold eps53
    norm_num
  have heps : (0:ℚ) < eps53 := by
    rw [hepsv]
    norm_num
  have hws := fl_le_of_pos _ hdiv
  have hkey : a * S ≤ (A:ℚ) + (A:ℚ) * eps53 := by
    have h1 : a * S ≤ a * ((A:ℚ)/a + ((A:ℚ)/a) * eps53) :=
      mul_le_mul_of_nonneg_left (le_trans hSle hws) ha.le
    have h2 : a * ((A:ℚ)/a + ((A:ℚ)/a) * eps53) = (A:ℚ) + (A:ℚ) * eps53 := by
      field_simp
    linarith
  have hprod := fl_le_of_pos _ (mul_pos ha hS0)
  have hchain : fl (a * S) ≤ ((A:ℚ) + (A:ℚ)*eps53) * (1 + eps53) := by
    calc fl (a * S) ≤ (a*S) + (a*S)*eps53 := hprod
      _ = (a*S) * (1 + eps53) := by ring
      _ ≤ ((A:ℚ) + (A:ℚ)*eps53) * (1 + eps53) :=
          mul_le_mul_of_nonneg_right hkey (by positivity)
  have hA50Q : (A:ℚ) ≤ 2 ^ 50 := by exact_mod_cast hA50
  have hsmall : ((A:ℚ) + (A:ℚ)*eps53) * (1 + eps53) < (A:ℚ) + 1 := by
    have hexp : ((A:ℚ) + (A:ℚ)*eps53) * (1 + eps53)
        = (A:ℚ) + (A:ℚ) * (2*eps53 + eps53^2) := by ring
    have hb1 : (A:ℚ) * (2*eps53 + eps53^2) ≤ (2^50:ℚ) * (2*eps53 + eps53^2) :=
      mul_le_mul_of_nonneg_right hA50Q (by positivity)
    have hb2 : (2^50:ℚ) * (2*eps53 + eps53^2) < 1 := by
      rw [hepsv]
      norm_num
    rw [hexp]
    linarith
  have hlt : fl (a * S) < ((A:ℚ) + 1) := lt_of_le_of_lt hchain hsmall
  have hfloor : ⌊fl (a * S)⌋ < (A:ℤ) + 1 := by
    apply Int.floor_lt.mpr
    push_cast
    linarith
  exact Int.toNat_le.mpr (by omega)

/-! ## Facts about the classified buckets of a slide -/

theorem mem_body_of_classified (s0 : Slide) (q : Nat)
    (h : q ∈ (get_slide_placeholders s0).body) :
    q ∈ s0.shapes.filterMap bodySel := by
  rw [get_slide_placeholders_eq] at h
  exact List.mem_reverse.mp h

theorem mem_pic_of_classified (s0 : Slide) (q : Nat)
    (h : q ∈ (get_slide_placeholders s0).picture) :
    q ∈ s0.shapes.filterMap picSel := by
  rw [get_slide_placeholders_eq] at h
  exact List.mem_reverse.mp h

theorem title_mem_of_classified (s0 : Slide) (t : Nat)
    (h : (get_slide_placeholders s0).title = some t) :
    t ∈ s0.shapes.filterMap titleSel := by
  rw [get_slide_placeholders_eq] at h
  exact mem_of_getLast_eq _ t h

theorem shapesTitle_mem (s0 : Slide) (t' : Nat) (h : shapesTitleIdx s0 = some t') :
    t' ∈ s0.shapes.filterMap titleSel := by
  unfold shapesTitleIdx at h
  rw [shapesTitleIdx_eq_head s0.shapes] at h
  exact mem_of_head_eq _ t' h

theorem nodup_body (s0 : Slide) (hN : (s0.shapes.filterMap phIdx?).Nodup) :
    (get_slide_placeholders s0).body.Nodup := by
  rw [get_slide_placeholders_eq]
  exact List.nodup_reverse.mpr
    (List.Nodup.sublist
      (filterMap_sublist_mono bodySel phIdx? bodySel_phIdx s0.shapes) hN)

theorem nodup_picture (s0 : Slide) (hN : (s0.shapes.filterMap phIdx?).Nodup) :
    (get_slide_placeholders s0).picture.Nodup := by
  rw [get_slide_placeholders_eq]
  exact List.nodup_reverse.mpr
    (List.Nodup.sublist
      (filterMap_sublist_mono picSel phIdx? picSel_phIdx s0.shapes) hN)

theorem body_not_pic (s0 : Slide) (hN : (s0.shapes.filterMap phIdx?).Nodup)
    (q : Nat) (hq : q ∈ (get_slide_placeholders s0).body) :
    q ∉ (get_slide_placeholders s0).picture := fun hp =>
  no_shared_idx s0.shapes hN bodySel picSel bodySel_phIdx picSel_phIdx
    bodySel_picSel_excl q (mem_body_of_classified s0 q hq)
    (mem_pic_of_classified s0 q hp)

theorem body_ne_title (s0 : Slide) (hN : (s0.shapes.filterMap phIdx?).Nodup)
    (q : Nat) (hq : q ∈ (get_slide_placeholders s0).body)
    (t : Nat) (ht : t ∈ s0.shapes.filterMap titleSel) : q ≠ t := fun hc =>
  no_shared_idx s0.shapes hN bodySel titleSel bodySel_phIdx titleSel_phIdx
    bodySel_titleSel_excl q (mem_body_of_classified s0 q hq) (hc ▸ ht)

theorem pic_ne_title (s0 : Slide) (hN : (s0.shapes.filterMap phIdx?).Nodup)
    (q : Nat) (hq : q ∈ (get_slide_placeholders s0).picture)
    (t : Nat) (ht : t ∈ s0.shapes.filterMap titleSel) : q ≠ t := fun hc =>
  no_shared_idx s0.shapes hN picSel titleSel picSel_phIdx titleSel_phIdx
    picSel_titleSel_excl q (mem_pic_of_classified s0 q hq) (hc ▸ ht)

theorem pic_not_body (s0 : Slide) (hN : (s0.shapes.filterMap phIdx?).Nodup)
    (q : Nat) (hq : q ∈ (get_slide_placeholders s0).picture) :
    q ∉ (get_slide_placeholders s0).body := fun hb =>
  no_shared_idx s0.shapes hN bodySel picSel bodySel_phIdx picSel_phIdx
    bodySel_picSel_excl q (mem_body_of_classified s0 q hb)
    (mem_pic_of_classified s0 q hq)

theorem findPH_body (s0 : Slide) (hN : (s0.shapes.filterMap phIdx?).Nodup)
    (q : Nat) (hq : q ∈ (get_slide_placeholders s0).body) :
    ∃ sh, findPH s0 q = some sh ∧ bodySel sh = some q := by
  rcases List.mem_filterMap.mp (mem_body_of_classified s0 q hq) with ⟨sh, hmem, hsel⟩
  exact ⟨sh, find_eq_of_nodup s0.shapes hN sh q hmem (bodySel_phIdx sh q hsel), hsel⟩

theorem findPH_pic (s0 : Slide) (hN : (s0.shapes.filterMap phIdx?).Nodup)
    (q : Nat) (hq : q ∈ (get_slide_placeholders s0).picture) :
    ∃ sh, findPH s0 q = some sh ∧ picSel sh = some q := by
  rcases List.mem_filterMap.mp (mem_pic_of_classified s0 q hq) with ⟨sh, hmem, hsel⟩
  exact ⟨sh, find_eq_of_nodup s0.shapes hN sh q hmem (picSel_phIdx sh q hsel), hsel⟩

theorem add_slide_success_ok (prs : Prs) (layout_name title : String)
    (bodies pictures : PyStrList) (m : String) (imgSize : String → Nat × Nat)
    (li : Nat) (hres : _get_slide_layout_idx prs layout_name = .ok li)
    (htitle : ¬((get_slide_placeholders (theNewSlide prs li)).title = none ∧
      title ≠ ""))
    (hk : bodies.len ≤ (get_slide_placeholders (theNewSlide prs li)).body.length)
    (hj : pictures.len ≤
      (get_slide_placeholders (theNewSlide prs li)).picture.length)
    (s3 : Slide)
    (hpl : picLoop imgSize pictures pictures.len m 0
        (get_slide_placeholders (theNewSlide prs li)).picture
        (bodyLoop bodies bodies.len 0
          (get_slide_placeholders (theNewSlide prs li)).body
          (titleStep (get_slide_placeholders (theNewSlide prs li)).title title
            (theNewSlide prs li))) = (s3, none)) :
    add_slide prs layout_name title bodies pictures m imgSize =
      ({ prs with slides := prs.slides ++ [s3] },
       .ok (theNewSlide prs li).slide_id) := by
  rw [add_slide_success_eq prs layout_name title bodies pictures m imgSize li
    hres htitle hk hj, hpl]

theorem findPH_title (s0 : Slide) (hN : (s0.shapes.filterMap phIdx?).Nodup)
    (t : Nat) (ht : t ∈ s0.shapes.filterMap titleSel) :
    ∃ sh, findPH s0 t = some sh ∧ titleSel sh = some t := by
  rcases List.mem_filterMap.mp ht with ⟨sh, hmem, hsel⟩
  exact ⟨sh, find_eq_of_nodup s0.shapes hN sh t hmem (titleSel_phIdx sh t hsel), hsel⟩

theorem add_slide_success_err (prs : Prs) (layout_name title : String)
    (bodies pictures : PyStrList) (m : String) (imgSize : String → Nat × Nat)
    (li : Nat) (hres : _get_slide_layout_idx prs layout_name = .ok li)
    (htitle : ¬((get_slide_placeholders (theNewSlide prs li)).title = none ∧
      title ≠ ""))
    (hk : bodies.len ≤ (get_slide_placeholders (theNewSlide prs li)).body.length)
    (hj : pictures.len ≤
      (get_slide_placeholders (theNewSlide prs li)).picture.length)
    (s3 : Slide) (er : PErr)
    (hpl : picLoop imgSize pictures pictures.len m 0
        (get_slide_placeholders (theNewSlide prs li)).picture
        (bodyLoop bodies bodies.len 0
          (get_slide_placeholders (theNewSlide prs li)).body
          (titleStep (get_slide_placeholders (theNewSlide prs li)).title title
            (theNewSlide prs li))) = (s3, some er)) :
    add_slide prs layout_name title bodies pictures m imgSize =
      ({ prs with slides := prs.slides ++ [s3] }, .error er) := by
  rw [add_slide_success_eq prs layout_name title bodies pictures m imgSize li
    hres htitle hk hj, hpl]

theorem picsOf_theNewSlide (prs : Prs) (li : Nat) :
    picsOf (theNewSlide prs li) = [] := by
  unfold picsOf theNewSlide
  induction (prs.slide_layouts.getD li ⟨"", []⟩).shapes with
  | nil => rfl
  | cons sh rest ih =>
    by_cases hph : Shape.isPlaceholder sh = true
    · rw [List.filter_cons_of_pos hph,
        List.filter_cons_of_neg (by cases sh <;> simp_all [Shape.isPic, Shape.isPlaceholder])]
      exact ih
    · rw [List.filter_cons_of_neg (by simpa using hph)]
      exact ih

/-! # The claims -/

/-- C2 counterexample: for the image `(49, 49)` in the container `(1, 1)`
the program returns `(0, 0)` — in binary64, `1/49` rounds below the exact
ratio and `49 * (1/49)` evaluates to `0.9999999999999999`, which `int()`
truncates to `0` — while the claimed exact-rational formula
`⌊w * min (W/w) (H/h)⌋` gives `1` on both axes (a tight fit).  The claim
is false at this input: no output dimension reaches the container. -/
theorem calc_fit_float_truncation :
    _calc_max_image_height_within_placeholder (49, 49) (1, 1) = .ok (0, 0)
    ∧ ⌊(49 : ℚ) * min ((1 : ℚ) / (49 : ℚ)) ((1 : ℚ) / (49 : ℚ))⌋.toNat = 1
    ∧ (0 : ℕ) ≠ 1 := by
  refine ⟨calc_fit_49, ?_, by norm_num⟩
  rw [min_self]
  norm_num

/-- C2 (amended): the fit calculator computes in binary64 floating point,
so its outputs are the truncations of rounded products, not of exact
ratios.  For positive dimensions (up to `2 ^ 50`, far beyond any pixel
count) the call returns normally and both outputs still fit within the
container; the tight-fit and exact-floor parts of the claim fail (see the
truncation counterexample), but the three reference vectors still evaluate
as specified. -/
theorem calc_fit_float_spec (w h W H : Nat)
    (hw : 0 < w) (hh : 0 < h) (hW : 0 < W) (hH : 0 < H)
    (hw50 : w ≤ 2 ^ 50) (hh50 : h ≤ 2 ^ 50) (hW50 : W ≤ 2 ^ 50) (hH50 : H ≤ 2 ^ 50) :
    (∃ ow oh,
      _calc_max_image_height_within_placeholder (w, h) (W, H) = .ok (ow, oh)
      ∧ ow ≤ W ∧ oh ≤ H)
    ∧ _calc_max_image_height_within_placeholder (1000, 500) (1200, 2000) = .ok (1200, 600)
    ∧ _calc_max_image_height_within_placeholder (1000, 500) (3000, 1000) = .ok (2000, 1000)
    ∧ _calc_max_image_height_within_placeholder (1000, 500) (4000, 2000) = .ok (4000, 2000) := by
  refine ⟨?_, calc_fit_vec1, calc_fit_vec2, calc_fit_vec3⟩
  have hwQ : (0:ℚ) < (w:ℚ) := by exact_mod_cast hw
  have hhQ : (0:ℚ) < (h:ℚ) := by exact_mod_cast hh
  have hWQ : (0:ℚ) < (W:ℚ) := by exact_mod_cast hW
  have hHQ : (0:ℚ) < (H:ℚ) := by exact_mod_cast hH
  have hSpos : 0 < min (fl ((W:ℚ)/(w:ℚ))) (fl ((H:ℚ)/(h:ℚ))) :=
    lt_min (fl_pos _ (div_pos hWQ hwQ)) (fl_pos _ (div_pos hHQ hhQ))
  have hflw : fl ((w:ℚ)) = (w:ℚ) := fl_natCast w hw (le_trans hw50 (by norm_num))
  have hflh : fl ((h:ℚ)) = (h:ℚ) := fl_natCast h hh (le_trans hh50 (by norm_num))
  refine ⟨_, _, calc_fit_eq w h W H (by omega), ?_, ?_⟩
  · rw [hflw]
    exact fl_scale_le (w:ℚ) W _ hwQ hSpos hW hW50 (min_le_left _ _)
  · rw [hflh]
    exact fl_scale_le (h:ℚ) H _ hhQ hSpos hH hH50 (min_le_right _ _)

/-- C2 witness: the amended fit theorem applied at the concrete input
`(1000, 500)` into `(1200, 2000)`. -/
theorem calc_fit_float_spec_witness :
    (0 < 1000 ∧ 0 < 500 ∧ 0 < 1200 ∧ 0 < 2000
      ∧ 1000 ≤ 2 ^ 50 ∧ 500 ≤ 2 ^ 50 ∧ 1200 ≤ 2 ^ 50 ∧ 2000 ≤ 2 ^ 50)
    ∧ (∃ ow oh,
        _calc_max_image_height_within_placeholder (1000, 500) (1200, 2000) = .ok (ow, oh)
        ∧ ow ≤ 1200 ∧ oh ≤ 2000)
    ∧ _calc_max_image_height_within_placeholder (1000, 500) (1200, 2000) = .ok (1200, 600) := by
  have h := calc_fit_float_spec 1000 500 1200 2000 (by norm_num) (by norm_num) (by norm_num)
    (by norm_num) (by norm_num) (by norm_num) (by norm_num) (by norm_num)
  exact ⟨⟨by norm_num, by norm_num, by norm_num, by norm_num, by norm_num, by norm_num,
    by norm_num, by norm_num⟩, h.1, h.2.1⟩

/-- C4 counterexample: a degenerate container `(0, 1)` with a positive image
`(1, 1)` makes the fit calculator return the degenerate result `(0, 0)`
normally; no `InvalidDimensionError` (nor any error) is raised. -/
theorem calc_fit_zero_container_returns :
    _calc_max_image_height_within_placeholder (1, 1) (0, 1) = .ok (0, 0) := by
  rw [calc_fit_eq 1 1 0 1 (by norm_num)]
  push_cast
  norm_num [fl_zero, fl_c1, min_def]

/-- C4 amended: the fit calculator performs no dimension validation.  A zero
image dimension raises the built-in `ZeroDivisionError` at the division; a
zero container dimension with a positive image returns the degenerate
result `(0, 0)` without raising anything. -/
theorem calc_fit_degenerate (w h W H : Nat) :
    (w = 0 ∨ h = 0 →
      _calc_max_image_height_within_placeholder (w, h) (W, H) =
        .error .zeroDivisionError)
    ∧ (0 < w → 0 < h → W = 0 ∨ H = 0 →
      _calc_max_image_height_within_placeholder (w, h) (W, H) = .ok (0, 0)) := by
  constructor
  · intro hz
    show (if w = 0 ∨ h = 0 then (Except.error PErr.zeroDivisionError : Except PErr (Nat × Nat))
          else .ok (⌊fl (fl (w : ℚ) * min (fl ((W : ℚ) / (w : ℚ))) (fl ((H : ℚ) / (h : ℚ))))⌋.toNat,
                    ⌊fl (fl (h : ℚ) * min (fl ((W : ℚ) / (w : ℚ))) (fl ((H : ℚ) / (h : ℚ))))⌋.toNat)) = _
    rw [if_pos hz]
  · intro hw hh hWH
    rw [calc_fit_eq w h W H (by omega)]
    rcases hWH with rfl | rfl
    · rw [Nat.cast_zero, zero_div, fl_zero,
        min_eq_left (fl_nonneg _ (by positivity)),
        mul_zero, mul_zero, fl_zero, Int.floor_zero]
      rfl
    · rw [Nat.cast_zero, zero_div, fl_zero,
        min_eq_right (fl_nonneg _ (by positivity)),
        mul_zero, mul_zero, fl_zero, Int.floor_zero]
      rfl

/-- C4 amended, witness: image `(3, 4)` into container `(5, 0)` returns the
degenerate `(0, 0)`; image `(0, 4)` raises `ZeroDivisionError`. -/
theorem calc_fit_degenerate_witness :
    _calc_max_image_height_within_placeholder (0, 4) (5, 7) =
        .error .zeroDivisionError
    ∧ _calc_max_image_height_within_placeholder (3, 4) (5, 0) = .ok (0, 0) :=
  ⟨(calc_fit_degenerate 0 4 5 7).1 (by norm_num),
   (calc_fit_degenerate 3 4 5 0).2 (by norm_num) (by norm_num) (by norm_num)⟩

/-- C6: a layout name absent from the template's catalog makes `add_slide`
fail with the lookup error (`KeyError`, the spec's `UnknownLayoutError`)
and leaves the document exactly as it was — no slide is added. -/
theorem add_slide_unknown_layout (prs : Prs) (layout_name title : String)
    (bodies pictures : PyStrList) (m : String) (imgSize : String → Nat × Nat)
    (h : dictLookup (get_all_slide_layouts prs) layout_name = none) :
    add_slide prs layout_name title bodies pictures m imgSize =
      (prs, .error .keyError) := by
  have hres : _get_slide_layout_idx prs layout_name = .error .keyError := by
    unfold _get_slide_layout_idx
    rw [h]
  simp only [add_slide, hres]

/-- C6 witness: the unknown-layout theorem applied to the concrete template
at the absent name `"missing"`. -/
theorem add_slide_unknown_layout_witness :
    dictLookup (get_all_slide_layouts testPrs) "missing" = none
    ∧ add_slide testPrs "missing" "" (.list []) (.list []) "fill_placeholder"
        noImg = (testPrs, .error .keyError) :=
  ⟨by decide,
   add_slide_unknown_layout testPrs "missing" "" (.list []) (.list [])
     "fill_placeholder" noImg (by decide)⟩

/-- C7: for every slide, the classifier's `body` and `picture` buckets are
exactly the placeholder indices of the body- and picture-typed placeholder
shapes in the reverse of the document's native shape order (so element 0 is
the first-authored shape when the native order is the reverse of authoring
order); the `title` entry is the title-typed placeholder's index (the last,
when several exist); and the `other` bucket's keys are exactly the indices
of the remaining placeholders — every placeholder shape lands in the one
bucket of its role. -/
theorem get_slide_placeholders_classification (s : Slide) :
    (get_slide_placeholders s).body = (s.shapes.filterMap bodySel).reverse
    ∧ (get_slide_placeholders s).picture = (s.shapes.filterMap picSel).reverse
    ∧ (get_slide_placeholders s).title = (s.shapes.filterMap titleSel).getLast?
    ∧ (∀ q : Nat, q ∈ (get_slide_placeholders s).other.map Prod.fst ↔
        q ∈ (s.shapes.filterMap otherSel).map Prod.fst)
    ∧ (∀ authored : List Shape, s.shapes = authored.reverse →
        (get_slide_placeholders s).body = authored.filterMap bodySel
        ∧ (get_slide_placeholders s).picture = authored.filterMap picSel) := by
  have heq := get_slide_placeholders_eq s
  refine ⟨?_, ?_, ?_, ?_, ?_⟩
  · rw [heq]
  · rw [heq]
  · rw [heq]
  · intro q
    rw [heq]
    simpa using dictFold_keys_mem (s.shapes.filterMap otherSel) [] q
  · intro authored hs
    constructor
    · rw [heq]
      show (s.shapes.filterMap bodySel).reverse = _
      rw [hs, List.filterMap_reverse, List.reverse_reverse]
    · rw [heq]
      show (s.shapes.filterMap picSel).reverse = _
      rw [hs, List.filterMap_reverse, List.reverse_reverse]

/-- C1: on a slide created by `add_slide` (with the default
`fill_placeholder` scaling), supplying `k ≤ n` body strings sets the text of
the first `k` classified body placeholders in classified order and removes
the remaining `n - k`; supplying `j ≤ m` picture paths fills the first `j`
picture placeholders and removes the remaining `m - j`; supplying more than
`n` body strings or more than `m` picture paths raises the input-validation
error (`AssertionError`, the spec's `InvalidInputError`). -/
theorem add_slide_bodies_pictures_spec (prs : Prs) (layout_name title : String)
    (bs ps : List String) (imgSize : String → Nat × Nat) (li : Nat)
    (hres : _get_slide_layout_idx prs layout_name = .ok li)
    (hN : ((theNewSlide prs li).shapes.filterMap phIdx?).Nodup)
    (htitle : ¬((get_slide_placeholders (theNewSlide prs li)).title = none ∧
      title ≠ "")) :
    (bs.length ≤ (get_slide_placeholders (theNewSlide prs li)).body.length →
     ps.length ≤ (get_slide_placeholders (theNewSlide prs li)).picture.length →
      (add_slide prs layout_name title (.list bs) (.list ps) "fill_placeholder"
          imgSize).2 = .ok (theNewSlide prs li).slide_id
      ∧ (∀ i, i < bs.length →
          (findPH (lastSlide (add_slide prs layout_name title (.list bs)
              (.list ps) "fill_placeholder" imgSize).1)
            ((get_slide_placeholders (theNewSlide prs li)).body.getD i 0)).map
              shapeText = some (bs.getD i ""))
      ∧ (∀ i, bs.length ≤ i →
          i < (get_slide_placeholders (theNewSlide prs li)).body.length →
          findPH (lastSlide (add_slide prs layout_name title (.list bs)
              (.list ps) "fill_placeholder" imgSize).1)
            ((get_slide_placeholders (theNewSlide prs li)).body.getD i 0) = none)
      ∧ (∀ i, i < ps.length →
          (findPH (lastSlide (add_slide prs layout_name title (.list bs)
              (.list ps) "fill_placeholder" imgSize).1)
            ((get_slide_placeholders (theNewSlide prs li)).picture.getD i 0)).map
              shapePic = some (some (ps.getD i "")))
      ∧ (∀ i, ps.length ≤ i →
          i < (get_slide_placeholders (theNewSlide prs li)).picture.length →
          findPH (lastSlide (add_slide prs layout_name title (.list bs)
              (.list ps) "fill_placeholder" imgSize).1)
            ((get_slide_placeholders (theNewSlide prs li)).picture.getD i 0)
            = none))
    ∧ ((get_slide_placeholders (theNewSlide prs li)).body.length < bs.length ∨
       (get_slide_placeholders (theNewSlide prs li)).picture.length < ps.length →
       ∃ msg, (add_slide prs layout_name title (.list bs) (.list ps)
           "fill_placeholder" imgSize).2 = .error (.assertionError msg)) := by
  constructor
  · intro hk hj
    rcases hpl : picLoop imgSize (.list ps) (PyStrList.list ps).len
        "fill_placeholder" 0 (get_slide_placeholders (theNewSlide prs li)).picture
        (bodyLoop (.list bs) (PyStrList.list bs).len 0
          (get_slide_placeholders (theNewSlide prs li)).body
          (titleStep (get_slide_placeholders (theNewSlide prs li)).title title
            (theNewSlide prs li))) with ⟨s3, e⟩
    have hsnd := picLoop_fill_snd imgSize (.list ps) (PyStrList.list ps).len
      (get_slide_placeholders (theNewSlide prs li)).picture 0
      (bodyLoop (.list bs) (PyStrList.list bs).len 0
        (get_slide_placeholders (theNewSlide prs li)).body
        (titleStep (get_slide_placeholders (theNewSlide prs li)).title title
          (theNewSlide prs li)))
    rw [hpl] at hsnd
    have he : e = none := hsnd
    subst he
    have heqok := add_slide_success_ok prs layout_name title (.list bs) (.list ps)
      "fill_placeholder" imgSize li hres htitle hk hj s3 hpl
    have hlast : lastSlide (add_slide prs layout_name title (.list bs) (.list ps)
        "fill_placeholder" imgSize).1 = s3 := by
      rw [heqok]
      exact lastSlide_append prs s3
    have hbN := nodup_body (theNewSlide prs li) hN
    have hpN := nodup_picture (theNewSlide prs li) hN
    have hs3 : s3 = (picLoop imgSize (.list ps) (PyStrList.list ps).len
        "fill_placeholder" 0 (get_slide_placeholders (theNewSlide prs li)).picture
        (bodyLoop (.list bs) (PyStrList.list bs).len 0
          (get_slide_placeholders (theNewSlide prs li)).body
          (titleStep (get_slide_placeholders (theNewSlide prs li)).title title
            (theNewSlide prs li)))).1 := by
      rw [hpl]
    refine ⟨by rw [heqok], ?_, ?_, ?_, ?_⟩
    · intro i hi
      have hilen : i < (get_slide_placeholders (theNewSlide prs li)).body.length :=
        lt_of_lt_of_le hi hk
      have hmem : (get_slide_placeholders (theNewSlide prs li)).body.getD i 0
          ∈ (get_slide_placeholders (theNewSlide prs li)).body := by
        rw [List.getD_eq_getElem _ 0 hilen]
        exact List.getElem_mem hilen
      have hnp := body_not_pic (theNewSlide prs li) hN _ hmem
      rw [hlast, hs3,
        picLoop_frame imgSize (.list ps) (PyStrList.list ps).len "fill_placeholder"
          (get_slide_placeholders (theNewSlide prs li)).picture 0 _ _ hnp,
        bodyLoop_get (.list bs) (PyStrList.list bs).len
          (get_slide_placeholders (theNewSlide prs li)).body hbN 0 _ i hilen]
      simp only [Nat.zero_add]
      rw [if_pos (show i < (PyStrList.list bs).len from hi),
        titleStep_frame (get_slide_placeholders (theNewSlide prs li)).title title
          (theNewSlide prs li) _
          (fun t ht => body_ne_title (theNewSlide prs li) hN _ hmem t
            (title_mem_of_classified (theNewSlide prs li) t ht))
          (fun t' ht' => body_ne_title (theNewSlide prs li) hN _ hmem t'
            (shapesTitle_mem (theNewSlide prs li) t' ht'))]
      rcases findPH_body (theNewSlide prs li) hN _ hmem with ⟨sh, hfind, hsel⟩
      rw [hfind]
      simp only [Option.map_some']
      rw [bodySel_setTextSh _ sh _ hsel]
      rfl
    · intro i hge hilen
      have hmem : (get_slide_placeholders (theNewSlide prs li)).body.getD i 0
          ∈ (get_slide_placeholders (theNewSlide prs li)).body := by
        rw [List.getD_eq_getElem _ 0 hilen]
        exact List.getElem_mem hilen
      have hnp := body_not_pic (theNewSlide prs li) hN _ hmem
      rw [hlast, hs3,
        picLoop_frame imgSize (.list ps) (PyStrList.list ps).len "fill_placeholder"
          (get_slide_placeholders (theNewSlide prs li)).picture 0 _ _ hnp,
        bodyLoop_get (.list bs) (PyStrList.list bs).len
          (get_slide_placeholders (theNewSlide prs li)).body hbN 0 _ i hilen]
      simp only [Nat.zero_add]
      rw [if_neg (show ¬ i < (PyStrList.list bs).len from Nat.not_lt.mpr hge)]
    · intro i hi
      have hilen :
          i < (get_slide_placeholders (theNewSlide prs li)).picture.length :=
        lt_of_lt_of_le hi hj
      have hmem : (get_slide_placeholders (theNewSlide prs li)).picture.getD i 0
          ∈ (get_slide_placeholders (theNewSlide prs li)).picture := by
        rw [List.getD_eq_getElem _ 0 hilen]
        exact List.getElem_mem hilen
      have hnb := pic_not_body (theNewSlide prs li) hN _ hmem
      rw [hlast, hs3,
        picLoop_fill_get imgSize (.list ps) (PyStrList.list ps).len
          (get_slide_placeholders (theNewSlide prs li)).picture hpN 0 _ i hilen]
      simp only [Nat.zero_add]
      rw [if_pos (show i < (PyStrList.list ps).len from hi),
        bodyLoop_frame (.list bs) (PyStrList.list bs).len
          (get_slide_placeholders (theNewSlide prs li)).body 0 _ _ hnb,
        titleStep_frame (get_slide_placeholders (theNewSlide prs li)).title title
          (theNewSlide prs li) _
          (fun t ht => pic_ne_title (theNewSlide prs li) hN _ hmem t
            (title_mem_of_classified (theNewSlide prs li) t ht))
          (fun t' ht' => pic_ne_title (theNewSlide prs li) hN _ hmem t'
            (shapesTitle_mem (theNewSlide prs li) t' ht'))]
      rcases findPH_pic (theNewSlide prs li) hN _ hmem with ⟨sh, hfind, hsel⟩
      rw [hfind]
      simp only [Option.map_some']
      rw [picSel_setPicSh _ sh _ hsel]
      rfl
    · intro i hge hilen
      rw [hlast, hs3,
        picLoop_fill_get imgSize (.list ps) (PyStrList.list ps).len
          (get_slide_placeholders (theNewSlide prs li)).picture hpN 0 _ i hilen]
      simp only [Nat.zero_add]
      rw [if_neg (show ¬ i < (PyStrList.list ps).len from Nat.not_lt.mpr hge)]
  · intro hover
    by_cases hbk : bs.length ≤
        (get_slide_placeholders (theNewSlide prs li)).body.length
    · have hj' : ¬ ps.length ≤
          (get_slide_placeholders (theNewSlide prs li)).picture.length := by
        rcases hover with h1 | h2
        · exact absurd hbk (by omega)
        · exact Nat.not_le.mpr h2
      exact ⟨"Pictures: more provided than placeholders exist",
        by rw [add_slide_picfail_eq prs layout_name title (.list bs) (.list ps)
          "fill_placeholder" imgSize li hres htitle hbk hj']⟩
    · exact ⟨"Body: more strings provided than placeholders exist",
        by rw [add_slide_bodyfail_eq prs layout_name title (.list bs) (.list ps)
          "fill_placeholder" imgSize li hres htitle hbk]⟩

/-- C3: with no title placeholder on the new slide, a non-empty title makes
`add_slide` raise the input-validation error; with a title placeholder, a
non-empty title sets that placeholder's text and an empty title removes
the placeholder from the slide. -/
theorem add_slide_title_spec (prs : Prs) (layout_name title : String)
    (bs ps : List String) (imgSize : String → Nat × Nat) (li : Nat)
    (hres : _get_slide_layout_idx prs layout_name = .ok li)
    (hN : ((theNewSlide prs li).shapes.filterMap phIdx?).Nodup)
    (huniq : ((theNewSlide prs li).shapes.filterMap titleSel).length ≤ 1)
    (hk : bs.length ≤ (get_slide_placeholders (theNewSlide prs li)).body.length)
    (hj : ps.length ≤
      (get_slide_placeholders (theNewSlide prs li)).picture.length) :
    ((get_slide_placeholders (theNewSlide prs li)).title = none → title ≠ "" →
      ∃ msg, (add_slide prs layout_name title (.list bs) (.list ps)
          "fill_placeholder" imgSize).2 = .error (.assertionError msg))
    ∧ (∀ t, (get_slide_placeholders (theNewSlide prs li)).title = some t →
        title ≠ "" →
        (add_slide prs layout_name title (.list bs) (.list ps)
            "fill_placeholder" imgSize).2 = .ok (theNewSlide prs li).slide_id
        ∧ (findPH (lastSlide (add_slide prs layout_name title (.list bs)
              (.list ps) "fill_placeholder" imgSize).1) t).map shapeText
            = some title)
    ∧ (∀ t, (get_slide_placeholders (theNewSlide prs li)).title = some t →
        title = "" →
        (add_slide prs layout_name title (.list bs) (.list ps)
            "fill_placeholder" imgSize).2 = .ok (theNewSlide prs li).slide_id
        ∧ findPH (lastSlide (add_slide prs layout_name title (.list bs)
            (.list ps) "fill_placeholder" imgSize).1) t = none) := by
  have hframe : ∀ t, (get_slide_placeholders (theNewSlide prs li)).title = some t →
      ∀ s' : Slide,
        picLoop imgSize (.list ps) (PyStrList.list ps).len "fill_placeholder" 0
          (get_slide_placeholders (theNewSlide prs li)).picture
          (bodyLoop (.list bs) (PyStrList.list bs).len 0
            (get_slide_placeholders (theNewSlide prs li)).body
            (titleStep (get_slide_placeholders (theNewSlide prs li)).title title
              (theNewSlide prs li))) = (s', none) →
        findPH s' t =
          findPH (titleStep (get_slide_placeholders (theNewSlide prs li)).title
            title (theNewSlide prs li)) t := by
    intro t ht s' hpl
    have htm := title_mem_of_classified (theNewSlide prs li) t ht
    have hnp : t ∉ (get_slide_placeholders (theNewSlide prs li)).picture :=
      fun hmem => pic_ne_title (theNewSlide prs li) hN t hmem t htm rfl
    have hnb : t ∉ (get_slide_placeholders (theNewSlide prs li)).body :=
      fun hmem => body_ne_title (theNewSlide prs li) hN t hmem t htm rfl
    have hs' : s' = (picLoop imgSize (.list ps) (PyStrList.list ps).len
        "fill_placeholder" 0 (get_slide_placeholders (theNewSlide prs li)).picture
        (bodyLoop (.list bs) (PyStrList.list bs).len 0
          (get_slide_placeholders (theNewSlide prs li)).body
          (titleStep (get_slide_placeholders (theNewSlide prs li)).title title
            (theNewSlide prs li)))).1 := by
      rw [hpl]
    rw [hs',
      picLoop_frame imgSize (.list ps) (PyStrList.list ps).len "fill_placeholder"
        (get_slide_placeholders (theNewSlide prs li)).picture 0 _ t hnp,
      bodyLoop_frame (.list bs) (PyStrList.list bs).len
        (get_slide_placeholders (theNewSlide prs li)).body 0 _ t hnb]
  refine ⟨?_, ?_, ?_⟩
  · intro ht hne
    exact ⟨"Title provided but no title placeholder exists",
      by rw [add_slide_titlefail_eq prs layout_name title (.list bs) (.list ps)
        "fill_placeholder" imgSize li hres ⟨ht, hne⟩]⟩
  · intro t ht hne
    have htitle : ¬((get_slide_placeholders (theNewSlide prs li)).title = none ∧
        title ≠ "") := by
      rw [ht]; rintro ⟨hc, _⟩; cases hc
    rcases hpl : picLoop imgSize (.list ps) (PyStrList.list ps).len
        "fill_placeholder" 0 (get_slide_placeholders (theNewSlide prs li)).picture
        (bodyLoop (.list bs) (PyStrList.list bs).len 0
          (get_slide_placeholders (theNewSlide prs li)).body
          (titleStep (get_slide_placeholders (theNewSlide prs li)).title title
            (theNewSlide prs li))) with ⟨s3, e⟩
    have hsnd := picLoop_fill_snd imgSize (.list ps) (PyStrList.list ps).len
      (get_slide_placeholders (theNewSlide prs li)).picture 0
      (bodyLoop (.list bs) (PyStrList.list bs).len 0
        (get_slide_placeholders (theNewSlide prs li)).body
        (titleStep (get_slide_placeholders (theNewSlide prs li)).title title
          (theNewSlide prs li)))
    rw [hpl] at hsnd
    have he : e = none := hsnd
    subst he
    have heqok := add_slide_success_ok prs layout_name title (.list bs) (.list ps)
      "fill_placeholder" imgSize li hres htitle hk hj s3 hpl
    have hlast : lastSlide (add_slide prs layout_name title (.list bs) (.list ps)
        "fill_placeholder" imgSize).1 = s3 := by
      rw [heqok]
      exact lastSlide_append prs s3
    refine ⟨by rw [heqok], ?_⟩
    rw [hlast, hframe t ht s3 hpl]
    have hst : shapesTitleIdx (theNewSlide prs li) = some t := by
      calc shapesTitleIdx (theNewSlide prs li)
          = ((theNewSlide prs li).shapes.filterMap titleSel).head? :=
            shapesTitleIdx_eq_head (theNewSlide prs li).shapes
        _ = ((theNewSlide prs li).shapes.filterMap titleSel).getLast? :=
            head_eq_getLast_of_le_one _ huniq
        _ = (get_slide_placeholders (theNewSlide prs li)).title := by
            rw [get_slide_placeholders_eq]
        _ = some t := ht
    rw [ht]
    simp only [titleStep]
    rw [if_pos hne]
    unfold setTitleText
    rw [hst, findPH_setText, if_pos rfl]
    rcases findPH_title (theNewSlide prs li) hN t
      (title_mem_of_classified (theNewSlide prs li) t ht) with ⟨sh, hfind, hsel⟩
    rw [hfind]
    simp only [Option.map_some']
    rw [titleSel_setTextSh _ sh _ hsel]
  · intro t ht hemp
    have htitle : ¬((get_slide_placeholders (theNewSlide prs li)).title = none ∧
        title ≠ "") := by
      rw [ht]; rintro ⟨hc, _⟩; cases hc
    rcases hpl : picLoop imgSize (.list ps) (PyStrList.list ps).len
        "fill_placeholder" 0 (get_slide_placeholders (theNewSlide prs li)).picture
        (bodyLoop (.list bs) (PyStrList.list bs).len 0
          (get_slide_placeholders (theNewSlide prs li)).body
          (titleStep (get_slide_placeholders (theNewSlide prs li)).title title
            (theNewSlide prs li))) with ⟨s3, e⟩
    have hsnd := picLoop_fill_snd imgSize (.list ps) (PyStrList.list ps).len
      (get_slide_placeholders (theNewSlide prs li)).picture 0
      (bodyLoop (.list bs) (PyStrList.list bs).len 0
        (get_slide_placeholders (theNewSlide prs li)).body
        (titleStep (get_slide_placeholders (theNewSlide prs li)).title title
          (theNewSlide prs li)))
    rw [hpl] at hsnd
    have he : e = none := hsnd
    subst he
    have heqok := add_slide_success_ok prs layout_name title (.list bs) (.list ps)
      "fill_placeholder" imgSize li hres htitle hk hj s3 hpl
    have hlast : lastSlide (add_slide prs layout_name title (.list bs) (.list ps)
        "fill_placeholder" imgSize).1 = s3 := by
      rw [heqok]
      exact lastSlide_append prs s3
    refine ⟨by rw [heqok], ?_⟩
    rw [hlast, hframe t ht s3 hpl, ht]
    simp only [titleStep]
    rw [if_neg (not_not_intro hemp), findPH_remove, if_pos rfl]

/-- C9: every successful `add_slide` call appends exactly one slide to the
document, leaves the existing slides and the layouts unchanged, and returns
the new slide's stable `slide_id` — which, on a deck satisfying the document
model's id invariant (distinct ids, all at least 256), differs from the new
slide's positional index. -/
theorem add_slide_appends_one_slide (prs : Prs) (layout_name title : String)
    (bodies pictures : PyStrList) (m : String) (imgSize : String → Nat × Nat)
    (sid : Nat)
    (hids : (prs.slides.map Slide.slide_id).Nodup)
    (hge : ∀ s ∈ prs.slides, 256 ≤ s.slide_id)
    (hok : (add_slide prs layout_name title bodies pictures m imgSize).2
      = .ok sid) :
    (add_slide prs layout_name title bodies pictures m imgSize).1.slides.length
        = prs.slides.length + 1
    ∧ (add_slide prs layout_name title bodies pictures m imgSize).1.slides.take
        prs.slides.length = prs.slides
    ∧ (add_slide prs layout_name title bodies pictures m imgSize).1.slide_layouts
        = prs.slide_layouts
    ∧ (lastSlide (add_slide prs layout_name title bodies pictures m
        imgSize).1).slide_id = sid
    ∧ sid = nextSlideId prs
    ∧ sid ≠ prs.slides.length := by
  cases hres : _get_slide_layout_idx prs layout_name with
  | error e =>
    exfalso
    have heq : add_slide prs layout_name title bodies pictures m imgSize =
        (prs, .error e) := by
      simp only [add_slide, hres]
    rw [heq] at hok
    exact absurd hok (by simp)
  | ok li =>
    by_cases ht : (get_slide_placeholders (theNewSlide prs li)).title = none ∧
        title ≠ ""
    · exfalso
      rw [add_slide_titlefail_eq prs layout_name title bodies pictures m imgSize
        li hres ht] at hok
      exact absurd hok (by simp)
    · by_cases hk : bodies.len ≤
          (get_slide_placeholders (theNewSlide prs li)).body.length
      · by_cases hj : pictures.len ≤
            (get_slide_placeholders (theNewSlide prs li)).picture.length
        · rcases hpl : picLoop imgSize pictures pictures.len m 0
              (get_slide_placeholders (theNewSlide prs li)).picture
              (bodyLoop bodies bodies.len 0
                (get_slide_placeholders (theNewSlide prs li)).body
                (titleStep (get_slide_placeholders (theNewSlide prs li)).title
                  title (theNewSlide prs li))) with ⟨s3, e⟩
          cases e with
          | some er =>
            exfalso
            rw [add_slide_success_err prs layout_name title bodies pictures m
              imgSize li hres ht hk hj s3 er hpl] at hok
            exact absurd hok (by simp)
          | none =>
            have heqok := add_slide_success_ok prs layout_name title bodies
              pictures m imgSize li hres ht hk hj s3 hpl
            rw [heqok] at hok
            have h2 : Except.ok ((theNewSlide prs li).slide_id) =
                Except.ok sid := hok
            injection h2 with h3
            have hid3 : s3.slide_id = (theNewSlide prs li).slide_id := by
              have : s3 = (picLoop imgSize pictures pictures.len m 0
                  (get_slide_placeholders (theNewSlide prs li)).picture
                  (bodyLoop bodies bodies.len 0
                    (get_slide_placeholders (theNewSlide prs li)).body
                    (titleStep (get_slide_placeholders (theNewSlide prs li)).title
                      title (theNewSlide prs li)))).1 := by
                rw [hpl]
              rw [this, picLoop_id, bodyLoop_id, titleStep_id]
            have hgt := nextSlideId_gt_length prs hids hge
            refine ⟨by rw [heqok]; simp, by rw [heqok]; exact List.take_left _ _,
              by rw [heqok], ?_, ?_, ?_⟩
            · rw [heqok]
              show (lastSlide { prs with slides := prs.slides ++ [s3] }).slide_id
                = sid
              rw [lastSlide_append prs s3, hid3]
              exact h3
            · rw [← h3]; rfl
            · rw [← h3]
              show nextSlideId prs ≠ prs.slides.length
              omega
        · exfalso
          rw [add_slide_picfail_eq prs layout_name title bodies pictures m
            imgSize li hres ht hk hj] at hok
          exact absurd hok (by simp)
      · exfalso
        rw [add_slide_bodyfail_eq prs layout_name title bodies pictures m
          imgSize li hres ht hk] at hok
        exact absurd hok (by simp)

/-- C10: with a `picture_scale_method` outside the two recognized values and
at least one picture path supplied for existing picture placeholders,
`add_slide` raises no error and returns normally, yet no image is inserted:
each supplied picture's placeholder is left exactly as created — neither
filled nor removed — and the slide carries no plain image shape at all. -/
theorem add_slide_unknown_scale_method (prs : Prs) (layout_name title : String)
    (bs ps : List String) (m : String) (imgSize : String → Nat × Nat) (li : Nat)
    (hres : _get_slide_layout_idx prs layout_name = .ok li)
    (hN : ((theNewSlide prs li).shapes.filterMap phIdx?).Nodup)
    (htitle : ¬((get_slide_placeholders (theNewSlide prs li)).title = none ∧
      title ≠ ""))
    (hk : bs.length ≤ (get_slide_placeholders (theNewSlide prs li)).body.length)
    (hj : ps.length ≤
      (get_slide_placeholders (theNewSlide prs li)).picture.length)
    (hj0 : 1 ≤ ps.length)
    (hm1 : m ≠ "fill_placeholder") (hm2 : m ≠ "within_placeholder")
    (hunfilled : ∀ sh ∈ (theNewSlide prs li).shapes, shapePic sh = none) :
    (add_slide prs layout_name title (.list bs) (.list ps) m imgSize).2
        = .ok (theNewSlide prs li).slide_id
    ∧ (∀ i, i < ps.length →
        findPH (lastSlide (add_slide prs layout_name title (.list bs) (.list ps)
            m imgSize).1)
          ((get_slide_placeholders (theNewSlide prs li)).picture.getD i 0)
        = findPH (theNewSlide prs li)
          ((get_slide_placeholders (theNewSlide prs li)).picture.getD i 0))
    ∧ (∀ i, i < ps.length →
        (findPH (lastSlide (add_slide prs layout_name title (.list bs) (.list ps)
            m imgSize).1)
          ((get_slide_placeholders (theNewSlide prs li)).picture.getD i 0)).map
          shapePic = some none)
    ∧ (lastSlide (add_slide prs layout_name title (.list bs) (.list ps)
        m imgSize).1).shapes.filter Shape.isPic = [] := by
  rcases hpl : picLoop imgSize (.list ps) (PyStrList.list ps).len m 0
      (get_slide_placeholders (theNewSlide prs li)).picture
      (bodyLoop (.list bs) (PyStrList.list bs).len 0
        (get_slide_placeholders (theNewSlide prs li)).body
        (titleStep (get_slide_placeholders (theNewSlide prs li)).title title
          (theNewSlide prs li))) with ⟨s3, e⟩
  have hsnd := picLoop_unknown_snd imgSize (.list ps) (PyStrList.list ps).len m
    hm1 hm2 (get_slide_placeholders (theNewSlide prs li)).picture 0
    (bodyLoop (.list bs) (PyStrList.list bs).len 0
      (get_slide_placeholders (theNewSlide prs li)).body
      (titleStep (get_slide_placeholders (theNewSlide prs li)).title title
        (theNewSlide prs li)))
  rw [hpl] at hsnd
  have he : e = none := hsnd
  subst he
  have heqok := add_slide_success_ok prs layout_name title (.list bs) (.list ps)
    m imgSize li hres htitle hk hj s3 hpl
  have hlast : lastSlide (add_slide prs layout_name title (.list bs) (.list ps)
      m imgSize).1 = s3 := by
    rw [heqok]
    exact lastSlide_append prs s3
  have hpN := nodup_picture (theNewSlide prs li) hN
  have hs3 : s3 = (picLoop imgSize (.list ps) (PyStrList.list ps).len m 0
      (get_slide_placeholders (theNewSlide prs li)).picture
      (bodyLoop (.list bs) (PyStrList.list bs).len 0
        (get_slide_placeholders (theNewSlide prs li)).body
        (titleStep (get_slide_placeholders (theNewSlide prs li)).title title
          (theNewSlide prs li)))).1 := by
    rw [hpl]
  have hfix : ∀ i, i < ps.length →
      findPH s3 ((get_slide_placeholders (theNewSlide prs li)).picture.getD i 0)
      = findPH (theNewSlide prs li)
        ((get_slide_placeholders (theNewSlide prs li)).picture.getD i 0) := by
    intro i hi
    have hilen : i < (get_slide_placeholders (theNewSlide prs li)).picture.length :=
      lt_of_lt_of_le hi hj
    have hmem : (get_slide_placeholders (theNewSlide prs li)).picture.getD i 0
        ∈ (get_slide_placeholders (theNewSlide prs li)).picture := by
      rw [List.getD_eq_getElem _ 0 hilen]
      exact List.getElem_mem hilen
    have hnb := pic_not_body (theNewSlide prs li) hN _ hmem
    rw [hs3,
      picLoop_unknown_get imgSize (.list ps) (PyStrList.list ps).len m hm1 hm2
        (get_slide_placeholders (theNewSlide prs li)).picture hpN 0 _ i hilen]
    simp only [Nat.zero_add]
    rw [if_pos (show i < (PyStrList.list ps).len from hi),
      bodyLoop_frame (.list bs) (PyStrList.list bs).len
        (get_slide_placeholders (theNewSlide prs li)).body 0 _ _ hnb,
      titleStep_frame (get_slide_placeholders (theNewSlide prs li)).title title
        (theNewSlide prs li) _
        (fun t htt => pic_ne_title (theNewSlide prs li) hN _ hmem t
          (title_mem_of_classified (theNewSlide prs li) t htt))
        (fun t' ht' => pic_ne_title (theNewSlide prs li) hN _ hmem t'
          (shapesTitle_mem (theNewSlide prs li) t' ht'))]
  refine ⟨by rw [heqok], ?_, ?_, ?_⟩
  · intro i hi
    rw [hlast]
    exact hfix i hi
  · intro i hi
    rw [hlast, hfix i hi]
    have hilen : i < (get_slide_placeholders (theNewSlide prs li)).picture.length :=
      lt_of_lt_of_le hi hj
    have hmem : (get_slide_placeholders (theNewSlide prs li)).picture.getD i 0
        ∈ (get_slide_placeholders (theNewSlide prs li)).picture := by
      rw [List.getD_eq_getElem _ 0 hilen]
      exact List.getElem_mem hilen
    rcases findPH_pic (theNewSlide prs li) hN _ hmem with ⟨sh, hfind, _⟩
    have hshmem : sh ∈ (theNewSlide prs li).shapes :=
      List.mem_of_find?_eq_some hfind
    rw [hfind]
    simp only [Option.map_some']
    rw [hunfilled sh hshmem]
  · rw [hlast]
    have hpics : picsOf s3 = [] := by
      rw [hs3]
      rw [picsOf_picLoop_unknown imgSize (.list ps) (PyStrList.list ps).len m
        hm1 hm2 (get_slide_placeholders (theNewSlide prs li)).picture 0 _,
        picsOf_bodyLoop (.list bs) (PyStrList.list bs).len
          (get_slide_placeholders (theNewSlide prs li)).body 0 _,
        titleStep_picsOf (get_slide_placeholders (theNewSlide prs li)).title
          title (theNewSlide prs li)]
      exact picsOf_theNewSlide prs li
    exact hpics

/-- C5's failing input, evaluated: a bare 2-character string `"ab"` passed as
`bodies` on a layout with two body placeholders is accepted — `len("ab") = 2`
passes the count assertion — and the call returns normally after writing the
single characters `"a"` and `"b"` into the two body placeholders.  No
`InvalidInputError` is raised, contradicting the claim that a bare string is
always rejected. -/
theorem add_slide_bare_string_accepted :
    (add_slide testPrs "title_2txt" "T" (.str "ab") (.list [])
        "fill_placeholder" noImg).2 = .ok 256
    ∧ (findPH (lastSlide (add_slide testPrs "title_2txt" "T" (.str "ab")
        (.list []) "fill_placeholder" noImg).1) 1).map shapeText = some "a"
    ∧ (findPH (lastSlide (add_slide testPrs "title_2txt" "T" (.str "ab")
        (.list []) "fill_placeholder" noImg).1) 2).map shapeText = some "b" := by
  refine ⟨by decide, by decide, by decide⟩

/-- C1 witness: the body/picture theorem applied to the concrete template's
`"title_2pic_3txt"` layout (three body, two picture placeholders) with one
body string and one picture path. -/
theorem add_slide_bodies_pictures_spec_witness :
    _get_slide_layout_idx testPrs "title_2pic_3txt" = .ok 3
    ∧ ((theNewSlide testPrs 3).shapes.filterMap phIdx?).Nodup
    ∧ ¬((get_slide_placeholders (theNewSlide testPrs 3)).title = none ∧
        "T" ≠ "")
    ∧ (add_slide testPrs "title_2pic_3txt" "T" (.list ["a"]) (.list ["p.png"])
        "fill_placeholder" noImg).2 = .ok (theNewSlide testPrs 3).slide_id
    ∧ (findPH (lastSlide (add_slide testPrs "title_2pic_3txt" "T"
        (.list ["a"]) (.list ["p.png"]) "fill_placeholder" noImg).1)
        ((get_slide_placeholders (theNewSlide testPrs 3)).body.getD 0 0)).map
        shapeText = some (["a"].getD 0 "")
    ∧ findPH (lastSlide (add_slide testPrs "title_2pic_3txt" "T"
        (.list ["a"]) (.list ["p.png"]) "fill_placeholder" noImg).1)
        ((get_slide_placeholders (theNewSlide testPrs 3)).body.getD 1 0) = none
    ∧ (findPH (lastSlide (add_slide testPrs "title_2pic_3txt" "T"
        (.list ["a"]) (.list ["p.png"]) "fill_placeholder" noImg).1)
        ((get_slide_placeholders (theNewSlide testPrs 3)).picture.getD 0 0)).map
        shapePic = some (some (["p.png"].getD 0 ""))
    ∧ findPH (lastSlide (add_slide testPrs "title_2pic_3txt" "T"
        (.list ["a"]) (.list ["p.png"]) "fill_placeholder" noImg).1)
        ((get_slide_placeholders (theNewSlide testPrs 3)).picture.getD 1 0)
        = none := by
  have h := add_slide_bodies_pictures_spec testPrs "title_2pic_3txt" "T" ["a"]
    ["p.png"] noImg 3 (by decide) (by decide) (by decide)
  have hs := h.1 (by decide) (by decide)
  exact ⟨by decide, by decide, by decide, hs.1,
    hs.2.1 0 (by decide), hs.2.2.1 1 (by decide) (by decide),
    hs.2.2.2.1 0 (by decide), hs.2.2.2.2 1 (by decide) (by decide)⟩

/-- C3 witness: the title theorem applied to the concrete template — a
non-empty title on the no-title layout errors; on `"title_only"` a non-empty
title is written into placeholder 0 and an empty title removes it. -/
theorem add_slide_title_spec_witness :
    (∃ msg, (add_slide testPrs "no_placeholders" "X" (.list []) (.list [])
        "fill_placeholder" noImg).2 = .error (.assertionError msg))
    ∧ ((add_slide testPrs "title_only" "Hello" (.list []) (.list [])
        "fill_placeholder" noImg).2 = .ok (theNewSlide testPrs 1).slide_id
      ∧ (findPH (lastSlide (add_slide testPrs "title_only" "Hello" (.list [])
          (.list []) "fill_placeholder" noImg).1) 0).map shapeText
          = some "Hello")
    ∧ ((add_slide testPrs "title_only" "" (.list []) (.list [])
        "fill_placeholder" noImg).2 = .ok (theNewSlide testPrs 1).slide_id
      ∧ findPH (lastSlide (add_slide testPrs "title_only" "" (.list [])
          (.list []) "fill_placeholder" noImg).1) 0 = none) := by
  have h1 := add_slide_title_spec testPrs "no_placeholders" "X" [] [] noImg 0
    (by decide) (by decide) (by decide) (by decide) (by decide)
  have h2 := add_slide_title_spec testPrs "title_only" "Hello" [] [] noImg 1
    (by decide) (by decide) (by decide) (by decide) (by decide)
  have h3 := add_slide_title_spec testPrs "title_only" "" [] [] noImg 1
    (by decide) (by decide) (by decide) (by decide) (by decide)
  exact ⟨h1.1 (by decide) (by decide), h2.2.1 0 (by decide) (by decide),
    h3.2.2 0 (by decide) (by decide)⟩

/-- C9 witness: the frame theorem applied to one concrete successful call on
an empty deck. -/
theorem add_slide_appends_one_slide_witness :
    (testPrs.slides.map Slide.slide_id).Nodup
    ∧ (add_slide testPrs "title_only" "T" (.list []) (.list [])
        "fill_placeholder" noImg).1.slides.length = testPrs.slides.length + 1
    ∧ (add_slide testPrs "title_only" "T" (.list []) (.list [])
        "fill_placeholder" noImg).1.slides.take testPrs.slides.length
        = testPrs.slides
    ∧ (add_slide testPrs "title_only" "T" (.list []) (.list [])
        "fill_placeholder" noImg).1.slide_layouts = testPrs.slide_layouts
    ∧ (lastSlide (add_slide testPrs "title_only" "T" (.list []) (.list [])
        "fill_placeholder" noImg).1).slide_id = 256
    ∧ 256 = nextSlideId testPrs
    ∧ 256 ≠ testPrs.slides.length := by
  have h := add_slide_appends_one_slide testPrs "title_only" "T" (.list [])
    (.list []) "fill_placeholder" noImg 256 (by decide) (by decide) (by decide)
  exact ⟨by decide, h.1, h.2.1, h.2.2.1, h.2.2.2.1, h.2.2.2.2.1, h.2.2.2.2.2⟩

/-- C10 witness: the unrecognized-method theorem applied to the concrete
template with method `"weird_method"` and one picture path: the call returns
normally, picture placeholder 5 is untouched and unfilled, and no image
shape exists on the slide. -/
theorem add_slide_unknown_scale_method_witness :
    (add_slide testPrs "title_2pic_3txt" "T" (.list []) (.list ["p.png"])
        "weird_method" noImg).2 = .ok (theNewSlide testPrs 3).slide_id
    ∧ findPH (lastSlide (add_slide testPrs "title_2pic_3txt" "T" (.list [])
        (.list ["p.png"]) "weird_method" noImg).1)
        ((get_slide_placeholders (theNewSlide testPrs 3)).picture.getD 0 0)
      = findPH (theNewSlide testPrs 3)
        ((get_slide_placeholders (theNewSlide testPrs 3)).picture.getD 0 0)
    ∧ (findPH (lastSlide (add_slide testPrs "title_2pic_3txt" "T" (.list [])
        (.list ["p.png"]) "weird_method" noImg).1)
        ((get_slide_placeholders (theNewSlide testPrs 3)).picture.getD 0 0)).map
        shapePic = some none
    ∧ (lastSlide (add_slide testPrs "title_2pic_3txt" "T" (.list [])
        (.list ["p.png"]) "weird_method" noImg).1).shapes.filter Shape.isPic
        = [] := by
  have h := add_slide_unknown_scale_method testPrs "title_2pic_3txt" "T" []
    ["p.png"] "weird_method" noImg 3 (by decide) (by decide) (by decide)
    (by decide) (by decide) (by decide) (by decide) (by decide) (by decide)
  exact ⟨h.1, h.2.1 0 (by decide), h.2.2.1 0 (by decide), h.2.2.2⟩

/-- C8 counterexample: two layouts named `"A"` produce a single dictionary
entry, silently overwritten to the later index — the mapping is not
one-entry-per-layout. -/
theorem get_all_slide_layouts_duplicate_name :
    get_all_slide_layouts dupPrs = [("A", 1)]
    ∧ dupPrs.slide_layouts.length = 2
    ∧ (get_all_slide_layouts dupPrs).length ≠ dupPrs.slide_layouts.length := by
  refine ⟨by decide, rfl, by decide⟩

/-- C8 amended: when all layout names are pairwise distinct, enumerating the
layouts returns exactly the 1:1 name-to-index mapping covering all layouts
in their defined order; with a duplicated name the later layout's entry
silently overwrites the earlier one (see the counterexample). -/
theorem get_all_slide_layouts_nodup_names (prs : Prs)
    (h : (prs.slide_layouts.map Layout.name).Nodup) :
    get_all_slide_layouts prs =
      prs.slide_layouts.enum.map (fun p => (p.2.name, p.1)) := by
  unfold get_all_slide_layouts
  rw [dictFold_fresh prs.slide_layouts.enum []
    (by rw [enum_names]; exact h) (by simp)]
  simp

/-- C8 witness: the distinct-names theorem applied to the concrete template. -/
theorem get_all_slide_layouts_nodup_names_witness :
    (testPrs.slide_layouts.map Layout.name).Nodup
    ∧ get_all_slide_layouts testPrs =
        testPrs.slide_layouts.enum.map (fun p => (p.2.name, p.1)) :=
  ⟨by decide, get_all_slide_layouts_nodup_names testPrs (by decide)⟩
